import Mathlib

/-!
Verification development for the mfcauto.py protocol client
(`src/mfcauto/client.py`, with constants generated by
`src/mfcauto/gen_constants.py`).

The embedding models:
* Python values that can appear as a decoded packet payload (`PyVal`);
* the binary frame codec of `MFCProtocol.data_received` and `Client.tx_cmd`
  (big-endian 32-bit signed header of seven fields followed by the payload
  bytes, UTF-8 decoded and JSON parsed with raw-text fallback);
* the packet dispatch of `Client._process_packet`, `Client.handle_packet_received`,
  `Client.handle_disconnected`, `Client.query_user`, `Client._process_list`,
  `Client.touserid` and `Client.toroomid`.

Modules imported by `client.py` that are not part of the two source files
(`packet.py`, `model.py`, `event_emitter.py`, the scraped portion of
`constants.py`, and Python's standard library `struct` and `json`) are
modelled explicitly; each such definition carries a doc comment saying so.
-/

/-- Model of the Python values that `client.py` manipulates as packet payloads:
`None`, booleans, integers, strings, lists and (insertion-ordered,
string-keyed) dictionaries.  Python dictionaries preserve insertion order and
the code under scrutiny only ever uses string keys, so a dictionary is an
association list.  Floats never appear in the claims and are not modelled. -/
inductive PyVal where
  | none : PyVal
  | bool (b : Bool) : PyVal
  | int (n : Int) : PyVal
  | str (s : String) : PyVal
  | list (xs : List PyVal) : PyVal
  | dict (kvs : List (String × PyVal)) : PyVal

/-- Python `isinstance(v, dict)`. -/
def PyVal.isDict : PyVal → Bool
  | .dict _ => true
  | _ => false

/-- Python `isinstance(v, list)`. -/
def PyVal.isList : PyVal → Bool
  | .list _ => true
  | _ => false

/-- Python `v is None` / `v == None` (for `PyVal` these coincide). -/
def PyVal.isNone : PyVal → Bool
  | .none => true
  | _ => false

/-- Python `v == k` for an integer constant `k`.  Python treats `True == 1`
and `False == 0`; every other non-integer value compares unequal to an
integer.  `client.py` only ever compares payload values against integer
constants (`-1`, `4`, `FCLEVEL.MODEL`), so this is the only value equality
needed from Python. -/
def PyVal.eqInt : PyVal → Int → Bool
  | .int n, k => n = k
  | .bool b, k => (if b then (1 : Int) else 0) = k
  | _, _ => false

/-- Lookup in the association list representing a Python dictionary. -/
def dictGet (kvs : List (String × PyVal)) (k : String) : Option PyVal :=
  match kvs.find? (fun kv => kv.1 = k) with
  | some kv => some kv.2
  | Option.none => Option.none

/-- Python `d[k] = v` on a dictionary: replaces the value in place when the
key exists (keeping its position) and appends the new pair otherwise,
matching insertion-order semantics. -/
def dictSet (kvs : List (String × PyVal)) (k : String) (v : PyVal) :
    List (String × PyVal) :=
  match kvs with
  | [] => [(k, v)]
  | (k0, v0) :: rest =>
      if k0 = k then (k0, v) :: rest else (k0, v0) :: dictSet rest k v

/-- Python `d.setdefault(k, dflt)`: returns the stored value when the key is
present, otherwise inserts `dflt` and returns it.  The (possibly extended)
dictionary is returned alongside because `_process_packet` relies on the
mutation (the merged payload contains the inserted keys). -/
def pySetdefault (kvs : List (String × PyVal)) (k : String) (dflt : PyVal) :
    PyVal × List (String × PyVal) :=
  match dictGet kvs k with
  | some v => (v, kvs)
  | Option.none => (dflt, kvs ++ [(k, dflt)])

/-- Python's 32-bit big-endian signed encoding of one `struct '>i'` field:
the value reduced modulo `2^32`, split into four big-endian bytes. -/
def int32ToBytes (i : Int) : List Nat :=
  let u : Nat := (i % (2 ^ 32)).toNat
  [u / 2 ^ 24 % 256, u / 2 ^ 16 % 256, u / 2 ^ 8 % 256, u % 256]

/-- Inverse of `int32ToBytes` on four bytes: big-endian unsigned value,
reinterpreted as a signed 32-bit quantity (two's complement), exactly as
`struct.unpack('>i')` does.  Any other shape yields 0 (never reached: the
decoder always passes exactly four bytes). -/
def bytesToInt32 : List Nat → Int
  | [a, b, c, d] =>
      let u : Nat := a * 2 ^ 24 + b * 2 ^ 16 + c * 2 ^ 8 + d
      if u < 2 ^ 31 then (u : Int) else (u : Int) - 2 ^ 32
  | _ => 0

/-- Read the big-endian `Int32` stored at byte offset `off` of `buf`. -/
def readI32 (buf : List Nat) (off : Nat) : Int :=
  bytesToInt32 ((buf.drop off).take 4)

/-- Python list/bytes slicing `buf[i:]` for a possibly negative `i`:
a negative index counts from the end of the sequence. -/
def pythonDrop (i : Int) (l : List α) : List α :=
  if 0 ≤ i then l.drop i.toNat else l.drop ((l.length + i).toNat)

/-- UTF-8 encoding of a single character (RFC 3629), the per-character
behaviour of Python's `str.encode()`. -/
def utf8EncodeChar (c : Char) : List Nat :=
  let n := c.toNat
  if n < 0x80 then [n]
  else if n < 0x800 then [0xC0 + n / 64, 0x80 + n % 64]
  else if n < 0x10000 then
    [0xE0 + n / 4096, 0x80 + n / 64 % 64, 0x80 + n % 64]
  else
    [0xF0 + n / 262144, 0x80 + n / 4096 % 64, 0x80 + n / 64 % 64, 0x80 + n % 64]

/-- UTF-8 encoding of a string: Python's `str.encode()`. -/
def utf8Encode (s : String) : List Nat :=
  s.data.flatMap utf8EncodeChar

/-- Decode one UTF-8 sequence with lead byte `b` and the following bytes
`rest`: the decoded character and the number of continuation bytes used.
Mirrors the strictness of Python's `bytes.decode('utf-8')`: stray
continuation bytes, overlong forms, surrogate code points, values above
`U+10FFFF` and truncated sequences are rejected. -/
def utf8DecodeOne (b : Nat) (rest : List Nat) : Option (Char × Nat) :=
  if b < 0x80 then some (Char.ofNat b, 0)
  else if b < 0xC2 then Option.none
  else if b < 0xE0 then
    match rest with
    | c1 :: _ =>
        if 0x80 ≤ c1 ∧ c1 < 0xC0 then
          some (Char.ofNat ((b - 0xC0) * 64 + (c1 - 0x80)), 1)
        else Option.none
    | [] => Option.none
  else if b < 0xF0 then
    match rest with
    | c1 :: c2 :: _ =>
        if 0x80 ≤ c1 ∧ c1 < 0xC0 ∧ 0x80 ≤ c2 ∧ c2 < 0xC0 then
          let v := (b - 0xE0) * 4096 + (c1 - 0x80) * 64 + (c2 - 0x80)
          if 0x800 ≤ v ∧ ¬(0xD800 ≤ v ∧ v ≤ 0xDFFF) then some (Char.ofNat v, 2)
          else Option.none
        else Option.none
    | _ => Option.none
  else if b < 0xF5 then
    match rest with
    | c1 :: c2 :: c3 :: _ =>
        if 0x80 ≤ c1 ∧ c1 < 0xC0 ∧ 0x80 ≤ c2 ∧ c2 < 0xC0 ∧
            0x80 ≤ c3 ∧ c3 < 0xC0 then
          let v := (b - 0xF0) * 262144 + (c1 - 0x80) * 4096 +
            (c2 - 0x80) * 64 + (c3 - 0x80)
          if 0x10000 ≤ v ∧ v ≤ 0x10FFFF then some (Char.ofNat v, 3)
          else Option.none
        else Option.none
    | _ => Option.none
  else Option.none

/-- Fuel-indexed strict UTF-8 decoding (each step consumes at least one
byte, so fuel equal to the byte count always suffices; the fuel-exhausted
case is unreachable from `utf8DecodeAux`). -/
def utf8DecodeAuxF : Nat → List Nat → Option (List Char)
  | _, [] => some []
  | 0, _ :: _ => Option.none
  | fuel + 1, b :: rest =>
      match utf8DecodeOne b rest with
      | some (c, n) =>
          match utf8DecodeAuxF fuel (rest.drop n) with
          | some cs => some (c :: cs)
          | Option.none => Option.none
      | Option.none => Option.none

/-- Strict UTF-8 decoding of a byte list into characters, mirroring Python's
`bytes.decode('utf-8')`, returning `none` exactly where Python raises
`UnicodeDecodeError`. -/
def utf8DecodeAux (bs : List Nat) : Option (List Char) :=
  utf8DecodeAuxF bs.length bs

/-- Strict UTF-8 decoding into a `String`, mirroring `bytes.decode('utf-8')`. -/
def utf8Decode (bs : List Nat) : Option String :=
  match utf8DecodeAux bs with
  | some cs => some (String.mk cs)
  | Option.none => Option.none

/-! ## Protocol constants

`MAGIC` and the six synthetic (negative) `FCTYPE` members are taken verbatim
from `src/mfcauto/gen_constants.py`, which writes them into the generated
`constants.py`. -/

/-- Wire-protocol magic constant, from `gen_constants.py` (`MAGIC = -2027771214`). -/
def MAGIC : Int := -2027771214

/-- Synthetic event id `FCTYPE.CLIENT_TAGSLOADED = -6` (from `gen_constants.py`). -/
def FCTYPE.CLIENT_TAGSLOADED : Int := -6
/-- Synthetic event id `FCTYPE.CLIENT_DISCONNECTED = -5` (from `gen_constants.py`). -/
def FCTYPE.CLIENT_DISCONNECTED : Int := -5
/-- Synthetic event id `FCTYPE.CLIENT_MODELSLOADED = -4` (from `gen_constants.py`). -/
def FCTYPE.CLIENT_MODELSLOADED : Int := -4
/-- Synthetic event id `FCTYPE.CLIENT_CONNECTED = -3` (from `gen_constants.py`). -/
def FCTYPE.CLIENT_CONNECTED : Int := -3
/-- Synthetic event id `FCTYPE.ANY = -2` (from `gen_constants.py`). -/
def FCTYPE.ANY : Int := -2
/-- Synthetic event id `FCTYPE.UNKNOWN = -1` (from `gen_constants.py`). -/
def FCTYPE.UNKNOWN : Int := -1

/-! Modelled from the spec: the numeric values of the wire-level `FCTYPE`,
`FCCHAN`, `FCWOPT`, `FCL` and `FCLEVEL` enum members are scraped from the
remote site at build time by `gen_constants.py` and are not present in the
source tree.  The values below are placeholders that are pairwise distinct
within each enum (which is all the dispatch logic of `_process_packet`
relies on); no theorem in this file depends on the particular numbers.
`FCLEVEL.MODEL = 4` is corroborated by `client.py` itself, which compares
`user_level == 4` literally. -/

/-- Modelled from the spec: wire `FCTYPE.NULL` (keepalive no-op), value scraped at build time. -/
def FCTYPE.NULL : Int := 0
/-- Modelled from the spec: wire `FCTYPE.LOGIN`, value scraped at build time. -/
def FCTYPE.LOGIN : Int := 1
/-- Modelled from the spec: wire `FCTYPE.ADDFRIEND`, value scraped at build time. -/
def FCTYPE.ADDFRIEND : Int := 2
/-- Modelled from the spec: wire `FCTYPE.PMESG`, value scraped at build time. -/
def FCTYPE.PMESG : Int := 3
/-- Modelled from the spec: wire `FCTYPE.DETAILS`, value scraped at build time. -/
def FCTYPE.DETAILS : Int := 5
/-- Modelled from the spec: wire `FCTYPE.TOKENINC`, value scraped at build time. -/
def FCTYPE.TOKENINC : Int := 6
/-- Modelled from the spec: wire `FCTYPE.ADDIGNORE`, value scraped at build time. -/
def FCTYPE.ADDIGNORE : Int := 7
/-- Modelled from the spec: wire `FCTYPE.USERNAMELOOKUP`, value scraped at build time. -/
def FCTYPE.USERNAMELOOKUP : Int := 10
/-- Modelled from the spec: wire `FCTYPE.SESSIONSTATE`, value scraped at build time. -/
def FCTYPE.SESSIONSTATE : Int := 20
/-- Modelled from the spec: wire `FCTYPE.TXPROFILE`, value scraped at build time. -/
def FCTYPE.TXPROFILE : Int := 25
/-- Modelled from the spec: wire `FCTYPE.TKX`, value scraped at build time. -/
def FCTYPE.TKX : Int := 30
/-- Modelled from the spec: wire `FCTYPE.ROOMHELPER`, value scraped at build time. -/
def FCTYPE.ROOMHELPER : Int := 49
/-- Modelled from the spec: wire `FCTYPE.CMESG`, value scraped at build time. -/
def FCTYPE.CMESG : Int := 50
/-- Modelled from the spec: wire `FCTYPE.JOINCHAN`, value scraped at build time. -/
def FCTYPE.JOINCHAN : Int := 51
/-- Modelled from the spec: wire `FCTYPE.TAGS`, value scraped at build time. -/
def FCTYPE.TAGS : Int := 64
/-- Modelled from the spec: wire `FCTYPE.METRICS`, value scraped at build time. -/
def FCTYPE.METRICS : Int := 69
/-- Modelled from the spec: wire `FCTYPE.MYWEBCAM`, value scraped at build time. -/
def FCTYPE.MYWEBCAM : Int := 72
/-- Modelled from the spec: wire `FCTYPE.MYCAMSTATE`, value scraped at build time. -/
def FCTYPE.MYCAMSTATE : Int := 73
/-- Modelled from the spec: wire `FCTYPE.BOOKMARKS`, value scraped at build time. -/
def FCTYPE.BOOKMARKS : Int := 77
/-- Modelled from the spec: wire `FCTYPE.EXTDATA`, value scraped at build time. -/
def FCTYPE.EXTDATA : Int := 81
/-- Modelled from the spec: wire `FCTYPE.MANAGELIST`, value scraped at build time. -/
def FCTYPE.MANAGELIST : Int := 91

/-- Modelled from the spec: `FCCHAN.JOIN`, value scraped at build time. -/
def FCCHAN.JOIN : Int := 1
/-- Modelled from the spec: `FCCHAN.PART`, value scraped at build time. -/
def FCCHAN.PART : Int := 2
/-- Modelled from the spec: `FCWOPT.REDIS_JSON`, value scraped at build time. -/
def FCWOPT.REDIS_JSON : Int := 256
/-- Modelled from the spec: `FCL.ROOMMATES`, value scraped at build time. -/
def FCL.ROOMMATES : Int := 1
/-- Modelled from the spec: `FCL.CAMS`, value scraped at build time. -/
def FCL.CAMS : Int := 2
/-- Modelled from the spec: `FCL.FRIENDS`, value scraped at build time. -/
def FCL.FRIENDS : Int := 4
/-- Modelled from the spec: `FCL.IGNORES`, value scraped at build time. -/
def FCL.IGNORES : Int := 3
/-- Modelled from the spec: `FCL.TAGS`, value scraped at build time. -/
def FCL.TAGS : Int := 7
/-- `FCLEVEL.MODEL = 4`: the broadcaster level; `client.py` line 123 compares
the payload's `lv` field against the literal `4`. -/
def FCLEVEL.MODEL : Int := 4

/-! ## JSON parsing (model of Python's `json.loads`)

`data_received` runs `json.loads` over the UTF-8 decoded payload and keeps
the raw text when that raises `JSONDecodeError`.  `json` is the Python
standard library, not part of this repository, so it is modelled: the parser
below covers the fragment exercised anywhere in this file — `null`, booleans,
integers (no leading zeros, as per the JSON grammar), strings without escape
sequences, arrays and objects — and fails on everything else.  Python's
`json.loads` additionally accepts floats and string escapes; every theorem
below is either parameterised over an arbitrary parse function or applies
this one only at inputs where it demonstrably agrees with `json.loads`. -/

/-- Skip JSON whitespace (space, tab, newline, carriage return). -/
def jsonSkipWs (cs : List Char) : List Char :=
  cs.dropWhile (fun c => c.toNat = 32 ∨ c.toNat = 9 ∨ c.toNat = 10 ∨ c.toNat = 13)

/-- Collect a run of decimal digits. -/
def jsonDigits : List Char → List Char × List Char
  | [] => ([], [])
  | c :: rest =>
      if 48 ≤ c.toNat ∧ c.toNat ≤ 57 then
        let (ds, r) := jsonDigits rest
        (c :: ds, r)
      else ([], c :: rest)

/-- Decimal value of a digit run. -/
def jsonDigitsVal (ds : List Char) : Nat :=
  ds.foldl (fun acc c => acc * 10 + (c.toNat - 48)) 0

mutual

/-- One JSON value; returns the parsed value and the remaining characters. -/
def jsonVal : Nat → List Char → Option (PyVal × List Char)
  | 0, _ => Option.none
  | fuel + 1, cs =>
      match jsonSkipWs cs with
      | [] => Option.none
      | c :: rest =>
          if c.toNat = 110 then -- n
            match rest with
            | u :: l1 :: l2 :: r =>
                if u.toNat = 117 ∧ l1.toNat = 108 ∧ l2.toNat = 108 then
                  some (PyVal.none, r)
                else Option.none
            | _ => Option.none
          else if c.toNat = 116 then -- t
            match rest with
            | r1 :: u :: e :: r =>
                if r1.toNat = 114 ∧ u.toNat = 117 ∧ e.toNat = 101 then
                  some (PyVal.bool true, r)
                else Option.none
            | _ => Option.none
          else if c.toNat = 102 then -- f
            match rest with
            | a :: l :: s :: e :: r =>
                if a.toNat = 97 ∧ l.toNat = 108 ∧ s.toNat = 115 ∧ e.toNat = 101 then
                  some (PyVal.bool false, r)
                else Option.none
            | _ => Option.none
          else if c.toNat = 45 ∨ (48 ≤ c.toNat ∧ c.toNat ≤ 57) then -- - or digit
            let (neg, ds0) : Bool × List Char :=
              if c.toNat = 45 then (true, rest) else (false, c :: rest)
            let (ds, r) := jsonDigits ds0
            if ds = [] then Option.none
            else if ds.length > 1 ∧ (ds.headD c).toNat = 48 then Option.none
            else
              -- a fraction or exponent would make this a float, which this
              -- model does not cover: fail rather than mis-parse
              match r with
              | d :: _ =>
                  if d.toNat = 46 ∨ d.toNat = 101 ∨ d.toNat = 69 then Option.none
                  else
                    some (PyVal.int (if neg then -(jsonDigitsVal ds : Int)
                      else (jsonDigitsVal ds : Int)), r)
              | [] =>
                  some (PyVal.int (if neg then -(jsonDigitsVal ds : Int)
                    else (jsonDigitsVal ds : Int)), r)
          else if c.toNat = 34 then -- double quote
            let content := rest.takeWhile (fun d => d.toNat ≠ 34 ∧ d.toNat ≠ 92)
            match rest.drop content.length with
            | d :: r =>
                if d.toNat = 34 then some (PyVal.str (String.mk content), r)
                else Option.none -- backslash escape: unsupported by this model
            | [] => Option.none
          else if c.toNat = 91 then -- open bracket
            match jsonSkipWs rest with
            | d :: r =>
                if d.toNat = 93 then some (PyVal.list [], r)
                else
                  match jsonArrayItems fuel (jsonSkipWs rest) with
                  | some (xs, r1) => some (PyVal.list xs, r1)
                  | Option.none => Option.none
            | [] => Option.none
          else if c.toNat = 123 then -- open brace
            match jsonSkipWs rest with
            | d :: r =>
                if d.toNat = 125 then some (PyVal.dict [], r)
                else
                  match jsonObjItems fuel (jsonSkipWs rest) with
                  | some (kvs, r1) => some (PyVal.dict kvs, r1)
                  | Option.none => Option.none
            | [] => Option.none
          else Option.none

/-- Comma-separated JSON array elements followed by a closing bracket. -/
def jsonArrayItems : Nat → List Char → Option (List PyVal × List Char)
  | 0, _ => Option.none
  | fuel + 1, cs =>
      match jsonVal fuel cs with
      | some (v, r) =>
          match jsonSkipWs r with
          | d :: r1 =>
              if d.toNat = 44 then -- comma
                match jsonArrayItems fuel r1 with
                | some (vs, r2) => some (v :: vs, r2)
                | Option.none => Option.none
              else if d.toNat = 93 then some ([v], r1) -- close bracket
              else Option.none
          | [] => Option.none
      | Option.none => Option.none

/-- Comma-separated JSON object members followed by a closing brace. -/
def jsonObjItems : Nat → List Char → Option (List (String × PyVal) × List Char)
  | 0, _ => Option.none
  | fuel + 1, cs =>
      match jsonSkipWs cs with
      | c :: rest =>
          if c.toNat = 34 then -- key string
            let content := rest.takeWhile (fun d => d.toNat ≠ 34 ∧ d.toNat ≠ 92)
            match rest.drop content.length with
            | d :: r =>
                if d.toNat = 34 then
                  match jsonSkipWs r with
                  | e :: r1 =>
                      if e.toNat = 58 then -- colon
                        match jsonVal fuel r1 with
                        | some (v, r2) =>
                            match jsonSkipWs r2 with
                            | f :: r3 =>
                                if f.toNat = 44 then -- comma
                                  match jsonObjItems fuel r3 with
                                  | some (kvs, r4) =>
                                      some ((String.mk content, v) :: kvs, r4)
                                  | Option.none => Option.none
                                else if f.toNat = 125 then -- close brace
                                  some ([(String.mk content, v)], r3)
                                else Option.none
                            | [] => Option.none
                        | Option.none => Option.none
                      else Option.none
                  | [] => Option.none
                else Option.none
            | [] => Option.none
          else Option.none
      | [] => Option.none

end

/-- Model of Python's `json.loads` (see the section comment above): parses a
single JSON value surrounded by optional whitespace, `none` where `json.loads`
raises `JSONDecodeError` on the modelled fragment. -/
def jsonLoads (s : String) : Option PyVal :=
  match jsonVal (s.data.length + 1) s.data with
  | some (v, r) => if jsonSkipWs r = [] then some v else Option.none
  | Option.none => Option.none

/-! ## Packets and the frame codec -/

/-- Modelled from the spec: the `Packet` class lives in `packet.py`, which is
not under `src/`; per the spec's data model a wire-decoded message is
`(kind, from, to, arg1, arg2, payload)`.  `data_received` constructs it as
`Packet(*unpacked_data[1:-1], smessage)`. -/
structure Packet where
  fctype : Int
  nfrom : Int
  nto : Int
  narg1 : Int
  narg2 : Int
  smessage : PyVal

/-- Result of one iteration of the `while` loop in
`MFCProtocol.data_received`: not enough buffered bytes yet (`break` without
consuming), an exception caught by the bare `except` (bad magic or a
`UnicodeDecodeError`, upon which the loop logs and stops the event loop), or
one decoded packet together with the remaining buffer. -/
inductive DecodeStep where
  | incomplete : DecodeStep
  | halted : DecodeStep
  | next (p : Packet) (rest : List Nat) : DecodeStep

/-- One iteration of `MFCProtocol.data_received`'s decode loop
(`client.py` lines 36-60): check for a full 28-byte header, unpack the seven
big-endian `int32` fields, assert the magic constant, read `payloadLength`
payload bytes when positive (breaking if they have not all arrived), UTF-8
decode them and attempt `json.loads` with raw-text fallback, then slice the
consumed bytes off the buffer and hand the packet over. -/
def decodeStep (parse : String → Option PyVal) (buf : List Nat) : DecodeStep :=
  if buf.length < 28 then DecodeStep.incomplete
  else
    let magic := readI32 buf 0
    let fctype := readI32 buf 4
    let nfrom := readI32 buf 8
    let nto := readI32 buf 12
    let narg1 := readI32 buf 16
    let narg2 := readI32 buf 20
    let spayload := readI32 buf 24
    if magic = MAGIC then
      if 0 < spayload then
        if (buf.length : Int) < 28 + spayload then DecodeStep.incomplete
        else
          match utf8Decode ((buf.drop 28).take spayload.toNat) with
          | some s =>
              let sm := match parse s with
                | some v => v
                | Option.none => PyVal.str s
              DecodeStep.next ⟨fctype, nfrom, nto, narg1, narg2, sm⟩
                (pythonDrop (28 + spayload) buf)
          | Option.none => DecodeStep.halted
      else
        DecodeStep.next ⟨fctype, nfrom, nto, narg1, narg2, PyVal.none⟩
          (pythonDrop (28 + spayload) buf)
    else DecodeStep.halted

/-- Status of the protocol handler: still running, the event loop stopped by
the bare `except` handler (`self.loop.stop()`), or the marker for the source's
potential non-termination (a frame declaring a negative `payloadLength` makes
the Python `while True` loop re-read the same bytes forever; the fuel in
`decodeLoop` is chosen so that this marker is unreachable for every byte
stream considered in the theorems below). -/
inductive PStatus where
  | running : PStatus
  | stopped : PStatus
  | diverged : PStatus
deriving DecidableEq

/-- State of an `MFCProtocol` instance: the accumulation buffer, plus the
sequence of packets handed to `client.handle_packet_received` so far and
whether the loop has been stopped (both tracked for the statements below;
packet processing by the client is modelled separately). -/
structure ProtState where
  buffer : List Nat
  msgs : List Packet
  status : PStatus

/-- The `while True` decode loop of `data_received`, with explicit fuel
(see `PStatus.diverged`). -/
def decodeLoop (parse : String → Option PyVal) :
    Nat → List Nat → List Packet → ProtState
  | 0, buf, acc => ⟨buf, acc, PStatus.diverged⟩
  | fuel + 1, buf, acc =>
      match decodeStep parse buf with
      | DecodeStep.incomplete => ⟨buf, acc, PStatus.running⟩
      | DecodeStep.halted => ⟨buf, acc, PStatus.stopped⟩
      | DecodeStep.next p rest => decodeLoop parse fuel rest (acc ++ [p])

/-- `MFCProtocol.data_received`: append the incoming bytes to the buffer and
run the decode loop.  A stopped handler receives no further callbacks from
the (stopped) event loop. -/
def dataReceived (parse : String → Option PyVal) (st : ProtState)
    (data : List Nat) : ProtState :=
  match st.status with
  | PStatus.running =>
      decodeLoop parse (st.buffer.length + data.length + 1)
        (st.buffer ++ data) st.msgs
  | _ => st

/-- The initial state of a freshly constructed `MFCProtocol` (empty buffer). -/
def protInit : ProtState := ⟨[], [], PStatus.running⟩

/-- `struct.pack`'s `'{n}s'` directive: truncate the byte string to `n` bytes
or pad it with zero bytes up to `n`. -/
def packPayload (n : Nat) (bs : List Nat) : List Nat :=
  bs.take n ++ List.replicate (n - bs.length) 0

/-- `Client.tx_cmd` (lines 215-224): packs
`('>iiiiiii{len(smsg)}s', MAGIC, fctype, session_id, nto, narg1, narg2,
len(smsg), smsg.encode())`.  A `None` message is replaced by the empty
string first.  Note that `len(smsg)` counts characters while `smsg.encode()`
produces UTF-8 bytes, so a non-ASCII message is truncated.  The
`isinstance(fctype, FCTYPE)` guard is a Python type check with no value
content and is not modelled. -/
def txCmdBytes (sessionId : Int) (fctype nto narg1 narg2 : Int)
    (smsg : Option String) : List Nat :=
  let s := smsg.getD ""
  int32ToBytes MAGIC ++ int32ToBytes fctype ++ int32ToBytes sessionId ++
    int32ToBytes nto ++ int32ToBytes narg1 ++ int32ToBytes narg2 ++
    int32ToBytes (s.length : Int) ++ packPayload s.length (utf8Encode s)

/-- A wire frame as a server would transmit it: the five application header
fields and the raw payload bytes. -/
structure WireFrame where
  fctype : Int
  nfrom : Int
  nto : Int
  narg1 : Int
  narg2 : Int
  payload : List Nat

/-- The 28-byte header of a frame: magic, the five fields, and the payload
byte count. -/
def headerBytes (f : WireFrame) : List Nat :=
  int32ToBytes MAGIC ++ int32ToBytes f.fctype ++ int32ToBytes f.nfrom ++
    int32ToBytes f.nto ++ int32ToBytes f.narg1 ++ int32ToBytes f.narg2 ++
    int32ToBytes (f.payload.length : Int)

/-- The encoded bytes of a frame: header followed by the payload. -/
def frameBytes (f : WireFrame) : List Nat :=
  headerBytes f ++ f.payload

/-- An integer representable in a signed 32-bit field. -/
def i32Range (i : Int) : Prop := -(2 ^ 31) ≤ i ∧ i < 2 ^ 31

/-- A valid wire frame: header fields in `int32` range, a payload short
enough for its length to be the (nonnegative) `payloadLength` field, bytes
in range, and a payload that UTF-8 decodes (the server sends UTF-8 text). -/
def ValidFrame (f : WireFrame) : Prop :=
  i32Range f.fctype ∧ i32Range f.nfrom ∧ i32Range f.nto ∧
    i32Range f.narg1 ∧ i32Range f.narg2 ∧
    f.payload.length < 2 ^ 31 ∧ (∀ b ∈ f.payload, b < 256) ∧
    (utf8Decode f.payload).isSome = true

/-- The packet that decoding a valid frame hands to the client: the five
header fields, with the payload UTF-8 decoded and JSON parsed with raw-text
fallback (empty payload means `None`). -/
def framePacket (parse : String → Option PyVal) (f : WireFrame) : Packet :=
  ⟨f.fctype, f.nfrom, f.nto, f.narg1, f.narg2,
    if f.payload.length = 0 then PyVal.none
    else
      match utf8Decode f.payload with
      | some s =>
          match parse s with
          | some v => v
          | Option.none => PyVal.str s
      | Option.none => PyVal.none⟩

/-! ## Python container operations used by `_process_packet` -/

/-- Whether `pre` is a prefix of `l` (helper for the substring test). -/
def listIsPre : List Char → List Char → Bool
  | [], _ => true
  | _ :: _, [] => false
  | a :: as, b :: bs => a = b && listIsPre as bs

/-- Whether `needle` occurs as a contiguous substring of `hay` (Python's
`needle in haystack` on strings). -/
def isSubstrList (needle : List Char) : List Char → Bool
  | [] => needle.isEmpty
  | h :: hs => listIsPre needle (h :: hs) || isSubstrList needle hs

/-- Python's `k in v` for a string `k`: key membership for a dictionary,
substring test for a string, element membership for a list (a string only
equals a string element), `TypeError` for the non-container values. -/
def pyContains (v : PyVal) (k : String) : Except String Bool :=
  match v with
  | PyVal.dict kvs => Except.ok (dictGet kvs k).isSome
  | PyVal.str s => Except.ok (isSubstrList k.data s.data)
  | PyVal.list xs =>
      Except.ok (xs.any fun x => match x with
        | PyVal.str s => s = k
        | _ => false)
  | _ => Except.error "TypeError"

/-- Python's `v[k]` for a string key `k`: dictionary lookup (`KeyError` when
missing), `TypeError` on any other value (indexing a list or string with a
string raises). -/
def pyGetItem (v : PyVal) (k : String) : Except String PyVal :=
  match v with
  | PyVal.dict kvs =>
      match dictGet kvs k with
      | some x => Except.ok x
      | Option.none => Except.error "KeyError"
  | _ => Except.error "TypeError"

/-- Python's `for x in v`: the elements of a list, the keys of a dictionary
(in insertion order), the characters of a string (as one-character strings),
`TypeError` otherwise. -/
def pyIter (v : PyVal) : Except String (List PyVal) :=
  match v with
  | PyVal.list xs => Except.ok xs
  | PyVal.dict kvs => Except.ok (kvs.map fun kv => PyVal.str kv.1)
  | PyVal.str s => Except.ok (s.data.map fun c => PyVal.str (String.mk [c]))
  | _ => Except.error "TypeError"

/-! ## `Client._process_list` (lines 240-267) -/

/-- The slots contributed by one schema entry of `_process_list`: a
single-key-per-pair mapping contributes `[key, path2]` slots for each
`path2` in its value, a bare string contributes a `[path1]` slot, and any
other entry is skipped (no `append`).  A slot is `(head, none)` for a bare
field and `(head, some path2)` for a grouped subfield. -/
def entrySlots (entry : PyVal) : Except String (List (String × Option PyVal)) :=
  match entry with
  | PyVal.dict kvs =>
      kvs.foldlM (fun acc kv => do
        let elems ← pyIter kv.2
        pure (acc ++ elems.map fun p2 => (kv.1, some p2))) []
  | PyVal.str s => Except.ok [(s, Option.none)]
  | _ => Except.ok []

/-- The flattened `schema_map` of `_process_list`. -/
def buildSchemaSlots (schema : List PyVal) :
    Except String (List (String × Option PyVal)) :=
  schema.foldlM (fun acc e => do pure (acc ++ (← entrySlots e))) []

/-- The `for i, item in enumerate(record)` loop of `_process_list`: slot `i`
with no group sets the field directly; a grouped slot does
`msg.setdefault(path[0], dict())[path[1]] = item`.  Reading past the end of
`schema_map` is an `IndexError`; writing a subfield into a non-dictionary
value is a `TypeError`.  A non-string subfield name is rejected here (the
string-keyed dictionary model; the protocol's schemas only use strings). -/
def buildRowAux (slots : List (String × Option PyVal)) :
    Nat → List PyVal → List (String × PyVal) →
    Except String (List (String × PyVal))
  | _, [], msg => Except.ok msg
  | i, item :: rest, msg =>
      match slots.get? i with
      | Option.none => Except.error "IndexError"
      | some (head, Option.none) =>
          buildRowAux slots (i + 1) rest (dictSet msg head item)
      | some (head, some p2) =>
          let (cur, msg1) := pySetdefault msg head (PyVal.dict [])
          match cur, p2 with
          | PyVal.dict inner, PyVal.str sub =>
              buildRowAux slots (i + 1) rest
                (dictSet msg1 head (PyVal.dict (dictSet inner sub item)))
          | PyVal.dict _, _ => Except.error "unhashable or non-string subfield name"
          | _, _ => Except.error "TypeError"

/-- Decode one sequence row of `_process_list` into a mapping. -/
def buildRow (slots : List (String × Option PyVal)) (items : List PyVal) :
    Except String (List (String × PyVal)) :=
  buildRowAux slots 0 items []

/-- The `for record in data[1:]` loop of `_process_list`: sequence rows are
decoded against the schema slots, mapping rows pass through unchanged, and
rows of any other shape are skipped; output preserves input order. -/
def processRows (slots : List (String × Option PyVal)) :
    List PyVal → Except String (List PyVal)
  | [] => Except.ok []
  | r :: rest =>
      match r with
      | PyVal.list items => do
          let m ← buildRow slots items
          let tail ← processRows slots rest
          Except.ok (PyVal.dict m :: tail)
      | PyVal.dict d => do
          let tail ← processRows slots rest
          Except.ok (PyVal.dict d :: tail)
      | _ => processRows slots rest

/-- `Client._process_list`: a non-empty list is decoded as a schema row
followed by data rows; any other input is returned unchanged. -/
def processList (data : PyVal) : Except String PyVal :=
  match data with
  | PyVal.list (schema :: rest) => do
      let schemaElems ← pyIter schema
      let slots ← buildSchemaSlots schemaElems
      let rows ← processRows slots rest
      Except.ok (PyVal.list rows)
  | _ => Except.ok data

/-! ## Client state and packet dispatch -/

/-- Externally observable side effects of the client: event emission
(`self.emit`), outbound commands (`tx_cmd`), registry operations on the
`Model` class (which lives in `model.py`, outside `src/`, and is therefore
recorded as an action rather than interpreted), the extended-data HTTP
fetch of `_handle_extdata`, timer manipulation and the event-loop stop. -/
inductive CAction where
  | emit (fctype : Int) (packet : Option Packet) : CAction
  | tx (fctype nto narg1 narg2 : Int) (smsg : Option String) : CAction
  | getModel (uid : PyVal) (isModel : Bool) : CAction
  | mergeModel (uid : PyVal) (payload : PyVal) : CAction
  | mergeTags (uid : PyVal) (tags : PyVal) : CAction
  | extdataFetch (extdata : PyVal) : CAction
  | cancelKeepalive : CAction
  | scheduleReconnect (delay : Nat) (login : Bool) : CAction
  | loopStop : CAction
  | registryReset : CAction

/-- Whether an action is the `CLIENT_MODELSLOADED` emission. -/
def CAction.isEmitModelsLoaded : CAction → Bool
  | CAction.emit k _ => k = FCTYPE.CLIENT_MODELSLOADED
  | _ => false

/-- Modelled from the spec: behaviour of the collaborators absent from
`src/` — `Model.get_model` (in `model.py`; the registry's get-or-create,
which can return `None` for ids it does not track, hence a predicate saying
whether it returns a record) and `Packet.aboutmodel.uid` (in `packet.py`;
the uid the packet is about, used by `_process_packet` when the payload
carries no `uid` field).  No theorem depends on a particular choice. -/
structure Collab where
  getModelSome : PyVal → Bool → Bool
  aboutUid : Packet → PyVal

/-- State of a `query_user` future: pending until its handler resolves it
with a result (`None` models "user does not exist"). -/
inductive FutureState where
  | pending : FutureState
  | resolved (result : PyVal) : FutureState

/-- The per-client mutable state of `Client.__init__` that the modelled
methods read or write, plus the registered `query_user` lookup handlers and
their futures (in Python these live as closures subscribed to
`FCTYPE.USERNAMELOOKUP` on the `EventEmitter`, which is in
`event_emitter.py`, outside `src/`; the spec describes them as the query
correlator's pending entries).  `server_config`, `transport`, `protocol`
and the stream of log messages are external and not modelled. -/
structure ClientState where
  username : PyVal
  password : String
  session_id : Int
  keepaliveSet : Bool
  completed_models : Bool
  completed_tags : Bool
  uid : PyVal
  manual_disconnect : Bool
  logged_in : Bool
  stream_cxid : PyVal
  stream_password : PyVal
  stream_vidctx : PyVal
  lookupHandlers : List Nat
  futures : List (Nat × FutureState)

/-- A fresh `Client(loop, username, password)`. -/
def clientInit (username password : String) : ClientState :=
  ⟨PyVal.str username, password, 0, false, false, false, PyVal.none, false,
    false, PyVal.none, PyVal.none, PyVal.none, [], []⟩

/-- Result of running one client method: the state as mutated so far, the
side effects performed so far (in order), and the uncaught exception, if
any (Python keeps partial mutations when a statement raises). -/
structure PRes where
  st : ClientState
  acts : List CAction
  err : Option String

/-- The shared body of the "details-style" branch of `_process_packet`
(lines 117-126): on a mapping payload, `setdefault` the `lv` and `uid`
fields (mutating the payload), fall back to `packet.aboutmodel.uid` for a
missing uid, and when the uid is usable look up the model (created as a
broadcaster when `lv == 4`) and merge the payload into it. -/
def detailsBody (cb : Collab) (p : Packet) (s : ClientState) : PRes :=
  match p.smessage with
  | PyVal.dict kvs =>
      let (user_level, kvs1) := pySetdefault kvs "lv" PyVal.none
      let (uidRaw, kvs2) := pySetdefault kvs1 "uid" PyVal.none
      let user_id := if uidRaw.isNone then cb.aboutUid p else uidRaw
      if (!user_id.isNone) && !(user_id.eqInt (-1)) &&
          (!user_level.isNone || user_level.eqInt 4) then
        let isM := user_level.eqInt 4
        if cb.getModelSome user_id isM then
          ⟨s, [CAction.getModel user_id isM,
            CAction.mergeModel user_id (PyVal.dict kvs2)], Option.none⟩
        else ⟨s, [CAction.getModel user_id isM], Option.none⟩
      else ⟨s, [], Option.none⟩
  | _ => ⟨s, [], Option.none⟩

/-- The `for key, value in packet.smessage.items()` loop of the `TAGS`
branch (lines 131-134): convert each key with `int(key)` (a non-numeric key
raises `ValueError`, keeping the effects performed so far), look up the
model and merge the tag delta. -/
def tagsFold (cb : Collab) : List (String × PyVal) → List CAction × Option String
  | [] => ([], Option.none)
  | (key, value) :: rest =>
      match key.toInt? with
      | Option.none => ([], some "ValueError")
      | some n =>
          let uidv := PyVal.int n
          let hd := if cb.getModelSome uidv false then
              [CAction.getModel uidv false, CAction.mergeTags uidv value]
            else [CAction.getModel uidv false]
          let (tail, err) := tagsFold cb rest
          (hd ++ tail, err)

/-- The `for bookmark in packet.smessage["bookmarks"]` loop of the
`BOOKMARKS` branch (lines 137-140). -/
def bookmarksFold (cb : Collab) : List PyVal → List CAction × Option String
  | [] => ([], Option.none)
  | bm :: rest =>
      match bm with
      | PyVal.dict kvs =>
          match dictGet kvs "uid" with
          | Option.none => ([], some "KeyError")
          | some uidv =>
              let hd := if cb.getModelSome uidv false then
                  [CAction.getModel uidv false, CAction.mergeModel uidv bm]
                else [CAction.getModel uidv false]
              let (tail, err) := bookmarksFold cb rest
              (hd ++ tail, err)
      | _ => ([], some "TypeError")

/-- The `for payload in rdata` loop of the `MANAGELIST` roster branch
(lines 153-156): each row must carry `uid` and `lv`; the model is created
as a broadcaster when `lv == FCLEVEL.MODEL` and the row is merged into it. -/
def mergeRowsFold (cb : Collab) : List PyVal → List CAction × Option String
  | [] => ([], Option.none)
  | row :: rest =>
      match row with
      | PyVal.dict kvs =>
          match dictGet kvs "uid" with
          | Option.none => ([], some "KeyError")
          | some uidv =>
              match dictGet kvs "lv" with
              | Option.none => ([], some "KeyError")
              | some lv =>
                  let isM := lv.eqInt FCLEVEL.MODEL
                  let hd := if cb.getModelSome uidv isM then
                      [CAction.getModel uidv isM, CAction.mergeModel uidv row]
                    else [CAction.getModel uidv isM]
                  let (tail, err) := mergeRowsFold cb rest
                  (hd ++ tail, err)
      | _ => ([], some "TypeError")

/-- The `for key, value in rdata.items()` loop of the `MANAGELIST` tag
branch (lines 161-164); here the raw string key is passed to
`Model.get_model`. -/
def manageTagsFold (cb : Collab) : List (String × PyVal) → List CAction
  | [] => []
  | (key, value) :: rest =>
      let uidv := PyVal.str key
      let hd := if cb.getModelSome uidv false then
          [CAction.getModel uidv false, CAction.mergeTags uidv value]
        else [CAction.getModel uidv false]
      hd ++ manageTagsFold cb rest

/-- The `TKX` branch of `_process_packet` (lines 169-173): when the payload
contains `cxid`, `tkx` and `ctxenc`, store the stream credentials; the
video context is the part after the first `/` of `ctxenc` when present.
`cxid` and `tkx` are stored before `ctxenc.split` runs, so a non-string
`ctxenc` leaves them assigned and raises. -/
def tkxBody (p : Packet) (s : ClientState) : PRes :=
  match pyContains p.smessage "cxid" with
  | Except.error e => ⟨s, [], some e⟩
  | Except.ok false => ⟨s, [], Option.none⟩
  | Except.ok true =>
      match pyContains p.smessage "tkx" with
      | Except.error e => ⟨s, [], some e⟩
      | Except.ok false => ⟨s, [], Option.none⟩
      | Except.ok true =>
          match pyContains p.smessage "ctxenc" with
          | Except.error e => ⟨s, [], some e⟩
          | Except.ok false => ⟨s, [], Option.none⟩
          | Except.ok true =>
              match pyGetItem p.smessage "cxid", pyGetItem p.smessage "tkx",
                  pyGetItem p.smessage "ctxenc" with
              | Except.ok cxid, Except.ok tkx, Except.ok ctxenc =>
                  match ctxenc with
                  | PyVal.str ce =>
                      let parts := ce.splitOn "/"
                      let vidctx := if 1 < parts.length then
                          PyVal.str (parts.getD 1 "")
                        else PyVal.str ce
                      ⟨({ s with
                          stream_cxid := cxid,
                          stream_password := tkx,
                          stream_vidctx := vidctx }), [], Option.none⟩
                  | _ =>
                      ⟨({ s with stream_cxid := cxid, stream_password := tkx }),
                        [], some "AttributeError"⟩
              | _, _, _ => ⟨s, [], some "TypeError"⟩

/-- `Client._process_packet` (lines 96-173): merge one packet into the
client's state, performing registry and event side effects.  The branches
follow the source's `if`/`elif` chain on `packet.fctype`; `log` calls and
`print` are not modelled. -/
def processPacket (cb : Collab) (p : Packet) (s : ClientState) : PRes :=
  let fctype := p.fctype
  if fctype = FCTYPE.LOGIN then
    if p.narg1 ≠ 0 then ⟨s, [], some "Login failed"⟩
    else
      ⟨({ s with
          session_id := p.nto,
          uid := PyVal.int p.narg2,
          username := p.smessage }), [], Option.none⟩
  else if fctype = FCTYPE.DETAILS ∨ fctype = FCTYPE.ROOMHELPER ∨
      fctype = FCTYPE.SESSIONSTATE ∨ fctype = FCTYPE.ADDFRIEND ∨
      fctype = FCTYPE.ADDIGNORE ∨ fctype = FCTYPE.CMESG ∨
      fctype = FCTYPE.PMESG ∨ fctype = FCTYPE.TXPROFILE ∨
      fctype = FCTYPE.USERNAMELOOKUP ∨ fctype = FCTYPE.MYCAMSTATE ∨
      fctype = FCTYPE.MYWEBCAM then
    if ¬ ((fctype = FCTYPE.DETAILS ∧ p.nfrom = FCTYPE.TOKENINC) ∨
        (fctype = FCTYPE.ROOMHELPER ∧ p.narg2 < 100) ∨
        (fctype = FCTYPE.JOINCHAN ∧ p.narg2 = FCCHAN.PART)) then
      detailsBody cb p s
    else ⟨s, [], Option.none⟩
  else if fctype = FCTYPE.TAGS then
    match p.smessage with
    | PyVal.dict kvs =>
        let (acts, err) := tagsFold cb kvs
        ⟨s, acts, err⟩
    | _ => ⟨s, [], Option.none⟩
  else if fctype = FCTYPE.BOOKMARKS then
    match pyContains p.smessage "bookmarks" with
    | Except.error e => ⟨s, [], some e⟩
    | Except.ok false => ⟨s, [], Option.none⟩
    | Except.ok true =>
        match pyGetItem p.smessage "bookmarks" with
        | Except.error e => ⟨s, [], some e⟩
        | Except.ok (PyVal.list bms) =>
            let (acts, err) := bookmarksFold cb bms
            ⟨s, acts, err⟩
        | Except.ok _ => ⟨s, [], Option.none⟩
  else if fctype = FCTYPE.METRICS then ⟨s, [], Option.none⟩
  else if fctype = FCTYPE.EXTDATA then
    if p.nto = s.session_id ∧ p.narg2 = FCWOPT.REDIS_JSON then
      ⟨s, [CAction.extdataFetch p.smessage], Option.none⟩
    else ⟨s, [], Option.none⟩
  else if fctype = FCTYPE.MANAGELIST then
    if 0 < p.narg2 then
      match pyContains p.smessage "rdata" with
      | Except.error e => ⟨s, [], some e⟩
      | Except.ok false => ⟨s, [], Option.none⟩
      | Except.ok true =>
          match pyGetItem p.smessage "rdata" with
          | Except.error e => ⟨s, [], some e⟩
          | Except.ok rdataRaw =>
              match processList rdataRaw with
              | Except.error e => ⟨s, [], some e⟩
              | Except.ok rdata =>
                  let ntype := p.narg2
                  if ntype = FCL.ROOMMATES ∨ ntype = FCL.CAMS ∨
                      ntype = FCL.FRIENDS ∨ ntype = FCL.IGNORES then
                    match rdata with
                    | PyVal.list rows =>
                        let (acts, err) := mergeRowsFold cb rows
                        match err with
                        | some e => ⟨s, acts, some e⟩
                        | Option.none =>
                            if ntype = FCL.CAMS ∧ ¬ s.completed_models then
                              ⟨{ s with completed_models := true },
                                acts ++ [CAction.emit FCTYPE.CLIENT_MODELSLOADED
                                  Option.none], Option.none⟩
                            else ⟨s, acts, Option.none⟩
                    | _ => ⟨s, [], Option.none⟩
                  else if ntype = FCL.TAGS then
                    match rdata with
                    | PyVal.dict kvs =>
                        let acts := manageTagsFold cb kvs
                        if ¬ s.completed_tags then
                          ⟨{ s with completed_tags := true },
                            acts ++ [CAction.emit FCTYPE.CLIENT_TAGSLOADED
                              Option.none], Option.none⟩
                        else ⟨s, acts, Option.none⟩
                    | _ => ⟨s, [], Option.none⟩
                  else ⟨s, [], Option.none⟩
    else ⟨s, [], Option.none⟩
  else if fctype = FCTYPE.TKX then tkxBody p s
  else ⟨s, [], Option.none⟩

/-- `Client.handle_packet_received` (lines 90-95): process the packet, then
emit it under its own kind and under `FCTYPE.ANY`; an exception from
`_process_packet` propagates before the emissions happen. -/
def handlePacketReceived (cb : Collab) (p : Packet) (s : ClientState) : PRes :=
  let r := processPacket cb p s
  match r.err with
  | some e => ⟨r.st, r.acts, some e⟩
  | Option.none =>
      ⟨r.st, r.acts ++ [CAction.emit p.fctype (some p),
        CAction.emit FCTYPE.ANY (some p)], Option.none⟩

/-- Lines 205-214 of `handle_disconnected`: reset the bulk-loaded flags,
schedule a reconnect in 30 seconds with the previous login choice (or stop
the loop on a manual disconnect), clear the manual flag, emit
`CLIENT_DISCONNECTED` and reset the model registry. -/
def handleDisconnectedRest (s : ClientState) (acts : List CAction) : PRes :=
  let s1 := { s with completed_models := false, completed_tags := false }
  let acts1 := acts ++ (if ¬ s1.manual_disconnect then
      [CAction.scheduleReconnect 30 s1.logged_in]
    else [CAction.loopStop])
  let s2 := { s1 with manual_disconnect := false }
  ⟨s2, acts1 ++ [CAction.emit FCTYPE.CLIENT_DISCONNECTED Option.none,
    CAction.registryReset], Option.none⟩

/-- `Client.handle_disconnected` (lines 197-214): cancel the keepalive
timer, restore a guest username, then reset per-connection flags, schedule
the reconnect (or stop the loop), emit the disconnect event and reset the
registry.  The registered lookup handlers and their futures are not
touched by any statement of the method. -/
def handleDisconnected (s : ClientState) : PRes :=
  let acts0 : List CAction := if s.keepaliveSet then [CAction.cancelKeepalive] else []
  let s0 := if s.keepaliveSet then { s with keepaliveSet := false } else s
  if s0.password = "guest" then
    match s0.username with
    | PyVal.str u =>
        let s1 := if u.startsWith "Guest" then
            { s0 with username := PyVal.str "guest" }
          else s0
        handleDisconnectedRest s1 acts0
    | _ => ⟨s0, acts0, some "AttributeError"⟩
  else handleDisconnectedRest s0 acts0

/-- The `handler` closures registered by `query_user` (lines 313-320), run
in subscription order when a `USERNAMELOOKUP` packet is emitted: a handler
whose query id matches `packet.narg1` unsubscribes itself and resolves its
future with the payload when it is a mapping, `None` otherwise.  Returns
the surviving handlers and the updated futures. -/
def runLookupHandlers :
    List Nat → List (Nat × FutureState) → Packet →
    List Nat × List (Nat × FutureState)
  | [], futs, _ => ([], futs)
  | q :: rest, futs, pkt =>
      if pkt.narg1 = (q : Int) then
        let res := if pkt.smessage.isDict then pkt.smessage else PyVal.none
        let futs1 := futs.map fun qf =>
          if qf.1 = q then (qf.1, FutureState.resolved res) else qf
        runLookupHandlers rest futs1 pkt
      else
        let (rest1, futs1) := runLookupHandlers rest futs pkt
        (q :: rest1, futs1)

/-- Dispatch of one `emit` to the handlers tracked by this model (the
`query_user` lookup handlers, subscribed to `FCTYPE.USERNAMELOOKUP`).
Emissions of other kinds, or without a packet argument, do not touch them. -/
def runEmit (s : ClientState) (fctype : Int) (p : Option Packet) : ClientState :=
  match p with
  | some pkt =>
      if fctype = FCTYPE.USERNAMELOOKUP then
        let (hs, fs) := runLookupHandlers s.lookupHandlers s.futures pkt
        { s with lookupHandlers := hs, futures := fs }
      else s
  | Option.none => s

/-- Result of `Client.query_user`: updated state and allocator counter, the
allocated query id, the transmitted command, and the raised error for an
argument that is neither an `int` nor a `str` (raised after the handler is
already registered, as in the source). -/
structure QRes where
  st : ClientState
  counter : Nat
  queryId : Nat
  acts : List CAction
  err : Option String

/-- The id allocation of `query_user` (lines 309-312): under
`Client.userQueryLock`, read `Client.userQueryId` and post-increment it. -/
def allocQueryId (counter : Nat) : Nat × Nat := (counter, counter + 1)

/-- The initial value of the class attribute `Client.userQueryId`. -/
def userQueryIdInit : Nat := 20

/-- The ids returned by `n` successive (lock-serialised) allocations. -/
def allocRun (counter : Nat) : Nat → List Nat
  | 0 => []
  | n + 1 =>
      let (qid, c1) := allocQueryId counter
      qid :: allocRun c1 n

/-- `Client.query_user` (lines 306-328): allocate a query id, create a
pending future, subscribe a lookup handler, then transmit the
`USERNAMELOOKUP` command (id lookup for an integer argument — Python also
routes `bool` here since `bool` subclasses `int` — name lookup for a
string, `Invalid Argument` otherwise). -/
def queryUser (user : PyVal) (counter : Nat) (s : ClientState) : QRes :=
  let (qid, c1) := allocQueryId counter
  let s1 := { s with
      lookupHandlers := s.lookupHandlers ++ [qid],
      futures := s.futures ++ [(qid, FutureState.pending)] }
  match user with
  | PyVal.int n =>
      ⟨s1, c1, qid, [CAction.tx FCTYPE.USERNAMELOOKUP 0 (qid : Int) n
        Option.none], Option.none⟩
  | PyVal.bool b =>
      ⟨s1, c1, qid, [CAction.tx FCTYPE.USERNAMELOOKUP 0 (qid : Int)
        (if b then 1 else 0) Option.none], Option.none⟩
  | PyVal.str u =>
      ⟨s1, c1, qid, [CAction.tx FCTYPE.USERNAMELOOKUP 0 (qid : Int) 0
        (some u)], Option.none⟩
  | _ => ⟨s1, c1, qid, [], some "Invalid Argument"⟩

/-- `Client.touserid` (lines 268-281): strip the room-id offset bands. -/
def touserid (uid : Int) : Int :=
  if 1000000000 ≤ uid then uid - 1000000000
  else if 400000000 ≤ uid then uid - 400000000
  else if 300000000 ≤ uid then uid - 300000000
  else if 200000000 ≤ uid then uid - 200000000
  else if 100000000 ≤ uid then uid - 100000000
  else uid

/-- `Client.toroomid` (lines 282-287): add the room-id offset when absent. -/
def toroomid (theId : Int) : Int :=
  if theId < 100000000 then theId + 100000000 else theId

/-- A roster row acceptable to the `MANAGELIST` merge loop: a mapping with
`uid` and `lv` fields. -/
def rowOk : PyVal → Bool
  | PyVal.dict kvs => (dictGet kvs "uid").isSome && (dictGet kvs "lv").isSome
  | _ => false

/-! ## Decoder lemmas -/

theorem int32_roundtrip (i : Int) (h1 : -(2 ^ 31) ≤ i) (h2 : i < 2 ^ 31) :
    bytesToInt32 (int32ToBytes i) = i := by
  simp only [int32ToBytes, bytesToInt32]
  omega

theorem int32ToBytes_length (i : Int) : (int32ToBytes i).length = 4 := rfl

theorem int32ToBytes_lt (i : Int) : ∀ b ∈ int32ToBytes i, b < 256 := by
  simp only [int32ToBytes, List.mem_cons, List.not_mem_nil, or_false]
  omega

theorem readI32_here (x : Int) (rest : List Nat) (h : i32Range x) :
    readI32 (int32ToBytes x ++ rest) 0 = x := by
  have hlen : (int32ToBytes x).length = 4 := rfl
  have : (int32ToBytes x ++ rest).take 4 = int32ToBytes x := by
    rw [List.take_append_of_le_length (by omega), ← hlen, List.take_length]
  simp only [readI32, List.drop_zero, this]
  exact int32_roundtrip x h.1 h.2

theorem readI32_skip (xs rest : List Nat) (off : Nat) (h : xs.length = 4) :
    readI32 (xs ++ rest) (4 + off) = readI32 rest off := by
  simp only [readI32]
  rw [show 4 + off = xs.length + off by omega, List.drop_append]

theorem readI32_flat (fs : List Int) (tail : List Nat) (i : Nat)
    (hi : i < fs.length) (hr : ∀ x ∈ fs, i32Range x) :
    readI32 (fs.flatMap int32ToBytes ++ tail) (4 * i) = fs.getD i 0 := by
  induction fs generalizing i tail with
  | nil => simp at hi
  | cons x fs ih =>
      cases i with
      | zero =>
          simp only [List.flatMap_cons, List.append_assoc, Nat.mul_zero,
            List.getD_cons_zero]
          exact readI32_here x _ (hr x (List.mem_cons_self x fs))
      | succ j =>
          have h4 : 4 * (j + 1) = 4 + 4 * j := by omega
          simp only [List.flatMap_cons, List.append_assoc, h4,
            List.getD_cons_succ]
          rw [readI32_skip _ _ _ (int32ToBytes_length x)]
          exact ih _ j (by simpa using hi) (fun y hy => hr y (List.mem_cons_of_mem x hy))

theorem readI32_take (l : List Nat) (k off : Nat) (h : off + 4 ≤ k) :
    readI32 (l.take k) off = readI32 l off := by
  simp only [readI32]
  rw [List.drop_take, List.take_take, Nat.min_eq_left (by omega)]

/-- The seven header fields of a frame, in pack order. -/
def headerFields (f : WireFrame) : List Int :=
  [MAGIC, f.fctype, f.nfrom, f.nto, f.narg1, f.narg2, (f.payload.length : Int)]

theorem headerBytes_eq_flat (f : WireFrame) :
    headerBytes f = (headerFields f).flatMap int32ToBytes := by
  simp [headerBytes, headerFields, List.flatMap_cons, List.append_assoc]

theorem headerBytes_length (f : WireFrame) : (headerBytes f).length = 28 := by
  simp [headerBytes, int32ToBytes]

theorem frameBytes_length (f : WireFrame) :
    (frameBytes f).length = 28 + f.payload.length := by
  simp [frameBytes, headerBytes_length]

theorem headerFields_range (f : WireFrame) (hv : ValidFrame f) :
    ∀ x ∈ headerFields f, i32Range x := by
  obtain ⟨h1, h2, h3, h4, h5, h6, _, _⟩ := hv
  simp only [headerFields, List.mem_cons, List.not_mem_nil, or_false]
  rintro x (rfl | rfl | rfl | rfl | rfl | rfl | rfl)
  · exact ⟨by norm_num [MAGIC], by norm_num [MAGIC]⟩
  · exact h1
  · exact h2
  · exact h3
  · exact h4
  · exact h5
  · constructor <;> omega

theorem readI32_frame (f : WireFrame) (tail : List Nat) (hv : ValidFrame f)
    (i : Nat) (hi : i < 7) :
    readI32 (frameBytes f ++ tail) (4 * i) = (headerFields f).getD i 0 := by
  have : frameBytes f ++ tail =
      (headerFields f).flatMap int32ToBytes ++ (f.payload ++ tail) := by
    rw [frameBytes, headerBytes_eq_flat, List.append_assoc]
  rw [this]
  exact readI32_flat _ _ i (by simp [headerFields]; omega)
    (headerFields_range f hv)

theorem frameBytes_drop28 (f : WireFrame) (tail : List Nat) :
    (frameBytes f ++ tail).drop 28 = f.payload ++ tail := by
  rw [frameBytes, List.append_assoc,
    show 28 = (headerBytes f).length from (headerBytes_length f).symm,
    List.drop_left]

theorem pythonDrop_nat (n : Nat) (l : List α) : pythonDrop (n : Int) l = l.drop n := by
  simp [pythonDrop]

theorem frameBytes_dropFull (f : WireFrame) (tail : List Nat) :
    (frameBytes f ++ tail).drop (28 + f.payload.length) = tail := by
  rw [show 28 + f.payload.length = (frameBytes f).length from (frameBytes_length f).symm,
    List.drop_left]

/-- Decoding a buffer that starts with a complete valid frame consumes exactly
that frame and yields its packet. -/
theorem decodeStep_frame (parse : String → Option PyVal) (f : WireFrame)
    (tail : List Nat) (hv : ValidFrame f) :
    decodeStep parse (frameBytes f ++ tail) =
      DecodeStep.next (framePacket parse f) tail := by
  have hlen : (frameBytes f ++ tail).length = 28 + f.payload.length + tail.length := by
    simp [frameBytes_length]
  have h0 := readI32_frame f tail hv 0 (by omega)
  have h1 := readI32_frame f tail hv 1 (by omega)
  have h2 := readI32_frame f tail hv 2 (by omega)
  have h3 := readI32_frame f tail hv 3 (by omega)
  have h4 := readI32_frame f tail hv 4 (by omega)
  have h5 := readI32_frame f tail hv 5 (by omega)
  have h6 := readI32_frame f tail hv 6 (by omega)
  norm_num [headerFields] at h0 h1 h2 h3 h4 h5 h6
  rcases Nat.eq_zero_or_pos f.payload.length with hp | hp
  · have hnil : f.payload = [] := List.length_eq_zero.mp hp
    simp only [decodeStep, hlen, h0, h1, h2, h3, h4, h5, h6, hp]
    rw [if_neg (by omega), if_pos (by trivial), if_neg (by norm_num)]
    have hdrop : pythonDrop (28 + ((0 : Nat) : Int)) (frameBytes f ++ tail) = tail := by
      rw [show 28 + ((0 : Nat) : Int) = ((28 : Nat) : Int) by norm_num, pythonDrop_nat]
      have := frameBytes_dropFull f tail
      rwa [hp] at this
    rw [hdrop]
    simp [framePacket, hp]
  · obtain ⟨s, hs⟩ : ∃ s, utf8Decode f.payload = some s := by
      have := hv.2.2.2.2.2.2.2
      exact Option.isSome_iff_exists.mp this
    have hslice : ((frameBytes f ++ tail).drop 28).take
        ((f.payload.length : Int)).toNat = f.payload := by
      rw [frameBytes_drop28, Int.toNat_natCast,
        List.take_append_of_le_length (le_refl _), List.take_length]
    have hdrop : pythonDrop (28 + ((f.payload.length : Nat) : Int))
        (frameBytes f ++ tail) = tail := by
      rw [show (28 : Int) + ((f.payload.length : Nat) : Int) =
          ((28 + f.payload.length : Nat) : Int) by push_cast; ring, pythonDrop_nat]
      exact frameBytes_dropFull f tail
    simp only [decodeStep, hlen, h0, h1, h2, h3, h4, h5, h6]
    rw [if_neg (by omega), if_pos (by trivial), if_pos (by exact_mod_cast hp),
      if_neg (by push_cast; omega)]
    rw [hslice, hs, hdrop]
    simp [framePacket, hs, Nat.pos_iff_ne_zero.mp hp]

/-- A buffer holding a strict prefix of a valid frame decodes nothing. -/
theorem decodeStep_short (parse : String → Option PyVal) (f : WireFrame)
    (k : Nat) (hv : ValidFrame f) (hk : k < 28 + f.payload.length) :
    decodeStep parse ((frameBytes f).take k) = DecodeStep.incomplete := by
  have hlen : ((frameBytes f).take k).length = k := by
    rw [List.length_take, frameBytes_length, Nat.min_eq_left (by omega)]
  by_cases h28 : k < 28
  · rw [decodeStep, if_pos (by omega)]
  · have hrd : ∀ i : Nat, i < 7 →
        readI32 ((frameBytes f).take k) (4 * i) = (headerFields f).getD i 0 := by
      intro i hi
      rw [readI32_take _ _ _ (by omega)]
      have := readI32_frame f [] hv i hi
      rwa [List.append_nil] at this
    have h0 := hrd 0 (by omega)
    have h6 := hrd 6 (by omega)
    norm_num [headerFields] at h0 h6
    have hp : 0 < f.payload.length := by omega
    simp only [decodeStep, hlen, h0, h6]
    rw [if_neg (by omega), if_pos (by trivial), if_pos (by exact_mod_cast hp),
      if_pos (by omega)]

theorem decodeLoop_step_frame (parse : String → Option PyVal) (f : WireFrame)
    (rest : List Nat) (hv : ValidFrame f) (fuel : Nat) (acc : List Packet) :
    decodeLoop parse (fuel + 1) (frameBytes f ++ rest) acc =
      decodeLoop parse fuel rest (acc ++ [framePacket parse f]) := by
  rw [decodeLoop, decodeStep_frame parse f rest hv]

theorem decodeLoop_incomplete (parse : String → Option PyVal) (buf : List Nat)
    (h : decodeStep parse buf = DecodeStep.incomplete) (fuel : Nat)
    (acc : List Packet) :
    decodeLoop parse (fuel + 1) buf acc = ⟨buf, acc, PStatus.running⟩ := by
  rw [decodeLoop, h]

theorem decodeStep_nil (parse : String → Option PyVal) :
    decodeStep parse [] = DecodeStep.incomplete := by
  rw [decodeStep, if_pos (by simp)]

/-- Running the decode loop over a concatenation of valid frames consumes
everything and delivers one packet per frame, in order. -/
theorem decodeLoop_frames (parse : String → Option PyVal) (fs : List WireFrame)
    (hv : ∀ f ∈ fs, ValidFrame f) (acc : List Packet) (fuel : Nat)
    (hfuel : fs.length < fuel) :
    decodeLoop parse fuel ((fs.map frameBytes).flatten) acc =
      ⟨[], acc ++ fs.map (framePacket parse), PStatus.running⟩ := by
  induction fs generalizing acc fuel with
  | nil =>
      obtain ⟨g, rfl⟩ : ∃ g, fuel = g + 1 := ⟨fuel - 1, by omega⟩
      rw [List.map_nil, List.flatten_nil,
        decodeLoop_incomplete parse [] (decodeStep_nil parse)]
      simp
  | cons f fs ih =>
      obtain ⟨g, rfl⟩ : ∃ g, fuel = g + 1 := ⟨fuel - 1, by omega⟩
      rw [List.map_cons, List.flatten_cons,
        decodeLoop_step_frame parse f _ (hv f (List.mem_cons_self f fs)) g acc,
        ih (fun x hx => hv x (List.mem_cons_of_mem f hx)) _ g
          (by rw [List.length_cons] at hfuel; omega)]
      simp

theorem frames_length_le (fs : List WireFrame) :
    fs.length ≤ ((fs.map frameBytes).flatten).length := by
  induction fs with
  | nil => simp
  | cons f fs ih =>
      rw [List.map_cons, List.flatten_cons, List.length_append, frameBytes_length,
        List.length_cons]
      omega

/-- Feeding a whole valid multi-frame byte stream to `data_received` in one
call delivers one packet per frame, in order, leaving an empty buffer. -/
theorem dataReceived_frames (parse : String → Option PyVal)
    (fs : List WireFrame) (hv : ∀ f ∈ fs, ValidFrame f) (msgs : List Packet) :
    dataReceived parse ⟨[], msgs, PStatus.running⟩ ((fs.map frameBytes).flatten) =
      ⟨[], msgs ++ fs.map (framePacket parse), PStatus.running⟩ := by
  rw [dataReceived]
  exact decodeLoop_frames parse fs hv msgs _
    (by have h := frames_length_le fs; simp only [List.length_nil]; omega)

/-- Feeding the bytes of one valid frame one at a time, starting from a
buffer already holding the first `k` bytes of that frame, ends with the
frame's packet delivered and an empty buffer. -/
theorem foldl_bytes_frame (parse : String → Option PyVal) (f : WireFrame)
    (hv : ValidFrame f) :
    ∀ n k, k < (frameBytes f).length → (frameBytes f).length - k = n + 1 →
    ∀ msgs : List Packet,
      ((frameBytes f).drop k).foldl (fun st b => dataReceived parse st [b])
          ⟨(frameBytes f).take k, msgs, PStatus.running⟩ =
        ⟨[], msgs ++ [framePacket parse f], PStatus.running⟩ := by
  intro n
  induction n with
  | zero =>
      intro k hk hn msgs
      have hk1 : k + 1 = (frameBytes f).length := by omega
      rw [List.drop_eq_getElem_cons hk, show (frameBytes f).drop (k + 1) = [] by
        rw [hk1, List.drop_length]]
      rw [List.foldl_cons, List.foldl_nil, dataReceived]
      have hbuf : (frameBytes f).take k ++ [(frameBytes f)[k]] = frameBytes f := by
        rw [List.take_concat_get' _ _ hk, hk1, List.take_length]
      simp only [hbuf, List.length_singleton]
      have hfuel : ((frameBytes f).take k).length + 1 + 1 = k + 2 := by
        rw [List.length_take, Nat.min_eq_left (by omega)]
      rw [hfuel, show frameBytes f = frameBytes f ++ [] by simp,
        decodeLoop_step_frame parse f [] hv (k + 1) msgs,
        decodeLoop_incomplete parse [] (decodeStep_nil parse)]
  | succ n ih =>
      intro k hk hn msgs
      rw [List.drop_eq_getElem_cons hk, List.foldl_cons, dataReceived]
      have hbuf : (frameBytes f).take k ++ [(frameBytes f)[k]] =
          (frameBytes f).take (k + 1) := List.take_concat_get' _ _ hk
      simp only [hbuf, List.length_singleton]
      have hfuel : ((frameBytes f).take k).length + 1 = k + 1 := by
        rw [List.length_take, Nat.min_eq_left (by omega)]
      have hshort : decodeStep parse ((frameBytes f).take (k + 1)) =
          DecodeStep.incomplete := by
        apply decodeStep_short parse f (k + 1) hv
        have := frameBytes_length f
        omega
      rw [hfuel, decodeLoop_incomplete parse _ hshort]
      exact ih (k + 1) (by omega) (by omega) msgs

/-- Feeding a whole valid multi-frame byte stream one byte at a time delivers
one packet per frame, in order, leaving an empty buffer. -/
theorem foldl_bytes_frames (parse : String → Option PyVal)
    (fs : List WireFrame) (hv : ∀ f ∈ fs, ValidFrame f) (msgs : List Packet) :
    ((fs.map frameBytes).flatten).foldl (fun st b => dataReceived parse st [b])
        ⟨[], msgs, PStatus.running⟩ =
      ⟨[], msgs ++ fs.map (framePacket parse), PStatus.running⟩ := by
  induction fs generalizing msgs with
  | nil => simp
  | cons f fs ih =>
      rw [List.map_cons, List.flatten_cons, List.foldl_append]
      have hlen : 0 < (frameBytes f).length := by rw [frameBytes_length]; omega
      have h1 := foldl_bytes_frame parse f (hv f (List.mem_cons_self f fs))
        ((frameBytes f).length - 1) 0 hlen (by omega) msgs
      rw [List.drop_zero, List.take_zero] at h1
      rw [h1, ih (fun x hx => hv x (List.mem_cons_of_mem f hx))]
      simp

/-! ## ASCII payload lemmas -/

theorem utf8EncodeChar_ascii (c : Char) (h : c.toNat < 128) :
    utf8EncodeChar c = [c.toNat] := by
  simp only [utf8EncodeChar]
  rw [if_pos (by omega)]

theorem utf8Encode_ascii (l : List Char) (h : ∀ c ∈ l, c.toNat < 128) :
    l.flatMap utf8EncodeChar = l.map Char.toNat := by
  induction l with
  | nil => rfl
  | cons c cs ih =>
      rw [List.flatMap_cons, List.map_cons,
        utf8EncodeChar_ascii c (h c (List.mem_cons_self c cs)),
        ih (fun x hx => h x (List.mem_cons_of_mem c hx))]
      rfl

theorem utf8DecodeAuxF_ascii (l : List Char) (h : ∀ c ∈ l, c.toNat < 128) :
    utf8DecodeAuxF l.length (l.map Char.toNat) = some l := by
  induction l with
  | nil => rfl
  | cons c cs ih =>
      have hc : c.toNat < 0x80 := h c (List.mem_cons_self c cs)
      rw [List.map_cons, List.length_cons, utf8DecodeAuxF]
      simp only [utf8DecodeOne, if_pos hc, List.drop_zero,
        ih (fun x hx => h x (List.mem_cons_of_mem c hx)), Char.ofNat_toNat]

theorem utf8DecodeAux_ascii (l : List Char) (h : ∀ c ∈ l, c.toNat < 128) :
    utf8DecodeAux (l.map Char.toNat) = some l := by
  rw [utf8DecodeAux, List.length_map]
  exact utf8DecodeAuxF_ascii l h

theorem utf8Decode_ascii (s : String) (h : ∀ c ∈ s.data, c.toNat < 128) :
    utf8Decode (utf8Encode s) = some s := by
  rw [utf8Encode, utf8Encode_ascii s.data h, utf8Decode, utf8DecodeAux_ascii s.data h]

theorem utf8Encode_ascii_length (s : String) (h : ∀ c ∈ s.data, c.toNat < 128) :
    (utf8Encode s).length = s.length := by
  rw [utf8Encode, utf8Encode_ascii s.data h, List.length_map]
  rfl

/-- For an ASCII message, the bytes `tx_cmd` writes are exactly the frame
encoding of a wire frame whose `from` field is the sender's session id and
whose payload is the UTF-8 encoding of the message. -/
theorem txCmdBytes_eq_frameBytes (sessionId fctype nto narg1 narg2 : Int)
    (s : String) (h : ∀ c ∈ s.data, c.toNat < 128) :
    txCmdBytes sessionId fctype nto narg1 narg2 (some s) =
      frameBytes ⟨fctype, sessionId, nto, narg1, narg2, utf8Encode s⟩ := by
  have hlen : (utf8Encode s).length = s.length := utf8Encode_ascii_length s h
  simp only [txCmdBytes, Option.getD_some, frameBytes, headerBytes, hlen,
    packPayload, List.append_assoc]
  rw [Nat.sub_self, List.replicate_zero, List.append_nil, ← hlen, List.take_length]

/-! ## Dictionary helper lemmas -/

theorem dictGet_cons_same (k : String) (v : PyVal) (rest : List (String × PyVal)) :
    dictGet ((k, v) :: rest) k = some v := by
  simp [dictGet, List.find?_cons]

theorem dictSet_head_same (k : String) (v0 v : PyVal) (rest : List (String × PyVal)) :
    dictSet ((k, v0) :: rest) k v = (k, v) :: rest := by
  rw [dictSet, if_pos rfl]

theorem dictSet_head_ne (k0 : String) (v0 : PyVal) (k : String) (v : PyVal)
    (rest : List (String × PyVal)) (h : k0 ≠ k) :
    dictSet ((k0, v0) :: rest) k v = (k0, v0) :: dictSet rest k v := by
  rw [dictSet, if_neg h]

/-! ## Claim theorems -/

/-- C10 counterexample: the claim quantifies over every id strictly below
100000000, but for the integer `-1` (ids are arbitrary Python integers)
`toroomid` yields 99999999, which `touserid` maps to itself rather than back
to `-1`, and applying `toroomid` again yields 199999999, so `toroomid` is
not idempotent either. -/
theorem touserid_toroomid_fails_on_negative :
    (-1 : Int) < 100000000 ∧ toroomid (-1) = 99999999 ∧
      touserid (toroomid (-1)) = 99999999 ∧ touserid (toroomid (-1)) ≠ -1 ∧
      toroomid (toroomid (-1)) ≠ toroomid (-1) := by
  refine ⟨by norm_num, by decide, by decide, by decide, by decide⟩

/-- C10 (amended to nonnegative ids): for `0 ≤ id < 100000000`, `toroomid`
adds exactly 100000000 and `touserid` inverts it; for `id ≥ 100000000`
`toroomid` is the identity; hence `toroomid` is idempotent on nonnegative
ids. -/
theorem touserid_toroomid_roundtrip (id : Int) (h0 : 0 ≤ id) :
    (id < 100000000 → toroomid id = id + 100000000 ∧
      touserid (toroomid id) = id) ∧
    (100000000 ≤ id → toroomid id = id) ∧
    toroomid (toroomid id) = toroomid id := by
  refine ⟨fun h => ?_, fun h => ?_, ?_⟩
  · have hr : toroomid id = id + 100000000 := by rw [toroomid, if_pos h]
    refine ⟨hr, ?_⟩
    rw [hr, touserid, if_neg (by omega), if_neg (by omega), if_neg (by omega),
      if_neg (by omega), if_pos (by omega)]
    omega
  · rw [toroomid, if_neg (by omega)]
  · by_cases h : id < 100000000
    · have hr : toroomid id = id + 100000000 := by rw [toroomid, if_pos h]
      rw [hr, toroomid, if_neg (by omega)]
    · have hr : toroomid id = id := by rw [toroomid, if_neg h]
      rw [hr]
      exact hr

/-- C10 witness: concrete instances of the amended round-trip facts. -/
theorem touserid_toroomid_roundtrip_witness :
    (toroomid 5 = 100000005 ∧ touserid (toroomid 5) = 5) ∧
      toroomid 200000000 = 200000000 ∧
      toroomid (toroomid 7) = toroomid 7 :=
  ⟨(touserid_toroomid_roundtrip 5 (by norm_num)).1 (by norm_num),
    (touserid_toroomid_roundtrip 200000000 (by norm_num)).2.1 (by norm_num),
    (touserid_toroomid_roundtrip 7 (by norm_num)).2.2⟩

theorem allocRun_getD (n : Nat) : ∀ (c i : Nat), i < n →
    (allocRun c n).getD i 0 = c + i := by
  induction n with
  | zero => intro c i hi; omega
  | succ m ih =>
      intro c i hi
      cases i with
      | zero => simp [allocRun, allocQueryId]
      | succ j =>
          rw [allocRun]
          simp only [allocQueryId, List.getD_cons_succ]
          rw [ih (c + 1) j (by omega)]
          omega

/-- C8: query-id allocation (the lock-serialised read-and-post-increment of
`Client.userQueryId` in `query_user`) returns strictly increasing, hence
pairwise distinct, ids over the allocator's lifetime: in any run of `n`
allocations from any starting counter, an earlier id is strictly below a
later one. -/
theorem queryId_alloc_monotone (c n i j : Nat) (hij : i < j) (hj : j < n) :
    (allocRun c n).getD i 0 < (allocRun c n).getD j 0 ∧
      (allocRun c n).getD i 0 ≠ (allocRun c n).getD j 0 := by
  rw [allocRun_getD n c i (by omega), allocRun_getD n c j hj]
  omega

/-- C8 witness: among five allocations starting from the initial counter 20,
the second id is below the fourth. -/
theorem queryId_alloc_monotone_witness :
    (allocRun userQueryIdInit 5).getD 1 0 < (allocRun userQueryIdInit 5).getD 3 0 ∧
      (allocRun userQueryIdInit 5).getD 1 0 ≠ (allocRun userQueryIdInit 5).getD 3 0 :=
  queryId_alloc_monotone userQueryIdInit 5 1 3 (by norm_num) (by norm_num)

/-- C3: processing a login response.  On `arg1 = 0` with `to = 4242`,
`arg2 = 555` and payload `"alice"`, `_process_packet` sets the session id to
4242, the uid to 555 and the username to `"alice"`, performing no other
effect; on any login response with `arg1 ≠ 0` it raises `Login failed`
(which the receive loop's bare `except` turns into a halt of the in-flight
connection) leaving session id, uid and username — indeed the whole client
state — unchanged. -/
theorem login_response_processing (cb : Collab) (s : ClientState) (nfrom : Int) :
    (processPacket cb ⟨FCTYPE.LOGIN, nfrom, 4242, 0, 555, PyVal.str "alice"⟩ s =
      ⟨({ s with
          session_id := 4242,
          uid := PyVal.int 555,
          username := PyVal.str "alice" }), [], Option.none⟩) ∧
    (∀ p : Packet, p.fctype = FCTYPE.LOGIN → p.narg1 ≠ 0 →
      processPacket cb p s = ⟨s, [], some "Login failed"⟩) := by
  refine ⟨rfl, fun p h1 h2 => ?_⟩
  rw [processPacket, h1, if_pos rfl, if_pos h2]

/-- C3 witness: the login scenario evaluated on a fresh guest client, and a
concrete failed login leaving the state unchanged. -/
theorem login_response_processing_witness :
    (processPacket ⟨fun _ _ => false, fun _ => PyVal.none⟩
        ⟨FCTYPE.LOGIN, 0, 4242, 0, 555, PyVal.str "alice"⟩
        (clientInit "guest" "guest") =
      ⟨({ clientInit "guest" "guest" with
          session_id := 4242,
          uid := PyVal.int 555,
          username := PyVal.str "alice" }), [], Option.none⟩) ∧
    (processPacket ⟨fun _ _ => false, fun _ => PyVal.none⟩
        ⟨FCTYPE.LOGIN, 0, 4242, 7, 555, PyVal.str "alice"⟩
        (clientInit "guest" "guest") =
      ⟨clientInit "guest" "guest", [], some "Login failed"⟩) :=
  ⟨(login_response_processing ⟨fun _ _ => false, fun _ => PyVal.none⟩
      (clientInit "guest" "guest") 0).1,
    (login_response_processing ⟨fun _ _ => false, fun _ => PyVal.none⟩
      (clientInit "guest" "guest") 0).2
      ⟨FCTYPE.LOGIN, 0, 4242, 7, 555, PyVal.str "alice"⟩ rfl (by norm_num)⟩

/-- C4: a frame whose magic field is 0 instead of `MAGIC` makes the decode
loop's `assert` fail; the bare `except` logs and calls `self.loop.stop()`,
halting all processing with the bytes still in the buffer, and neither
delivers a packet nor performs any disconnect or reconnect (those are only
performed by `handle_disconnected`, which is not invoked). -/
theorem bad_magic_halts_loop :
    (0 : Int) ≠ MAGIC ∧
    dataReceived jsonLoads protInit
        (int32ToBytes 0 ++ int32ToBytes FCTYPE.LOGIN ++ int32ToBytes 0 ++
          int32ToBytes 0 ++ int32ToBytes 0 ++ int32ToBytes 0 ++ int32ToBytes 0) =
      ⟨int32ToBytes 0 ++ int32ToBytes FCTYPE.LOGIN ++ int32ToBytes 0 ++
          int32ToBytes 0 ++ int32ToBytes 0 ++ int32ToBytes 0 ++ int32ToBytes 0,
        [], PStatus.stopped⟩ := by
  exact ⟨by decide, rfl⟩

/-- C5: with two `query_user` futures pending (ids 20 and 21),
`handle_disconnected` completes without error but leaves both futures
pending and both lookup handlers registered — no statement of the method
resolves or fails them — and dispatching its emissions (only
`CLIENT_DISCONNECTED`) through the handlers leaves the futures pending as
well. -/
theorem disconnect_leaves_pending_queries :
    (let q1 := queryUser (PyVal.str "somemodel") userQueryIdInit
        (clientInit "mc" "hunter2")
     let q2 := queryUser (PyVal.int 99) q1.counter q1.st
     let r := handleDisconnected q2.st
     r.st.futures = [(20, FutureState.pending), (21, FutureState.pending)] ∧
       r.st.lookupHandlers = [20, 21] ∧
       (r.acts.foldl (fun st a =>
          match a with
          | CAction.emit k p => runEmit st k p
          | _ => st) r.st).futures =
         [(20, FutureState.pending), (21, FutureState.pending)] ∧
       r.err = Option.none) :=
  ⟨rfl, rfl, rfl, rfl⟩

/-- C6 counterexample: on the claim's own input — schema
`["uid", {"session": ["vs","camscore"]}]` with the two-element row
`[12345, [0, 99]]` — `_process_list` walks the row in lockstep with the
three flattened slots `uid`, `session.vs`, `session.camscore`, so the
second row element `[0, 99]` lands whole in `session.vs`: the result is
`{"uid": 12345, "session": {"vs": [0, 99]}}`, not the claimed
`{"uid": 12345, "session": {"vs": 0, "camscore": 99}}`. -/
theorem processList_example_counterexample :
    processList (PyVal.list [PyVal.list [PyVal.str "uid",
        PyVal.dict [("session", PyVal.list [PyVal.str "vs", PyVal.str "camscore"])]],
      PyVal.list [PyVal.int 12345, PyVal.list [PyVal.int 0, PyVal.int 99]]]) =
      Except.ok (PyVal.list [PyVal.dict [("uid", PyVal.int 12345),
        ("session", PyVal.dict [("vs", PyVal.list [PyVal.int 0, PyVal.int 99])])]]) ∧
    PyVal.dict [("uid", PyVal.int 12345),
        ("session", PyVal.dict [("vs", PyVal.list [PyVal.int 0, PyVal.int 99])])] ≠
      PyVal.dict [("uid", PyVal.int 12345),
        ("session", PyVal.dict [("vs", PyVal.int 0), ("camscore", PyVal.int 99)])] := by
  refine ⟨rfl, ?_⟩
  simp

/-- C6 (amended): the claimed output arises for the flattened row
`[12345, 0, 99]`, while the claim's two-element row `[12345, [0, 99]]`
nests `[0, 99]` under `session.vs`; in general mapping rows pass through
unchanged in input order, a bare schema slot sets its field directly, and a
grouped slot sets the subfield inside the nested mapping under the group
key, slots being paired with row positions. -/
theorem processList_schema_semantics :
    (processList (PyVal.list [PyVal.list [PyVal.str "uid",
        PyVal.dict [("session", PyVal.list [PyVal.str "vs", PyVal.str "camscore"])]],
      PyVal.list [PyVal.int 12345, PyVal.int 0, PyVal.int 99]]) =
      Except.ok (PyVal.list [PyVal.dict [("uid", PyVal.int 12345),
        ("session", PyVal.dict [("vs", PyVal.int 0), ("camscore", PyVal.int 99)])]])) ∧
    (processList (PyVal.list [PyVal.list [PyVal.str "uid",
        PyVal.dict [("session", PyVal.list [PyVal.str "vs", PyVal.str "camscore"])]],
      PyVal.list [PyVal.int 12345, PyVal.list [PyVal.int 0, PyVal.int 99]]]) =
      Except.ok (PyVal.list [PyVal.dict [("uid", PyVal.int 12345),
        ("session", PyVal.dict [("vs", PyVal.list [PyVal.int 0, PyVal.int 99])])]])) ∧
    (∀ (slots : List (String × Option PyVal)) (rows : List PyVal),
      (∀ r ∈ rows, r.isDict = true) →
      processRows slots rows = Except.ok rows) ∧
    (∀ (n1 n2 : String) (v1 v2 : PyVal), n1 ≠ n2 →
      processList (PyVal.list [PyVal.list [PyVal.str n1, PyVal.str n2],
        PyVal.list [v1, v2]]) =
      Except.ok (PyVal.list [PyVal.dict [(n1, v1), (n2, v2)]])) ∧
    (∀ (g f1 f2 : String) (v1 v2 : PyVal), f1 ≠ f2 →
      processList (PyVal.list [PyVal.list
          [PyVal.dict [(g, PyVal.list [PyVal.str f1, PyVal.str f2])]],
        PyVal.list [v1, v2]]) =
      Except.ok (PyVal.list
        [PyVal.dict [(g, PyVal.dict [(f1, v1), (f2, v2)])]])) := by
  refine ⟨rfl, rfl, ?_, ?_, ?_⟩
  · intro slots rows h
    induction rows with
    | nil => rfl
    | cons r rest ih =>
        have hr := h r (List.mem_cons_self r rest)
        have ih2 := ih (fun x hx => h x (List.mem_cons_of_mem r hx))
        cases r with
        | dict d =>
            rw [processRows]
            simp only [ih2]
            rfl
        | none => simp [PyVal.isDict] at hr
        | bool b => simp [PyVal.isDict] at hr
        | int n => simp [PyVal.isDict] at hr
        | str s0 => simp [PyVal.isDict] at hr
        | list xs => simp [PyVal.isDict] at hr
  · intro n1 n2 v1 v2 h
    show Except.ok (PyVal.list [PyVal.dict (dictSet [(n1, v1)] n2 v2)]) = _
    rw [dictSet_head_ne _ _ _ _ _ h]
    rfl
  · intro g f1 f2 v1 v2 h
    have e1 : buildRowAux [(g, some (PyVal.str f1)), (g, some (PyVal.str f2))]
        0 [v1, v2] [] =
        buildRowAux [(g, some (PyVal.str f1)), (g, some (PyVal.str f2))] 1 [v2]
          [(g, PyVal.dict [(f1, v1)])] := by
      show buildRowAux [(g, some (PyVal.str f1)), (g, some (PyVal.str f2))] 1 [v2]
          (dictSet [(g, PyVal.dict [])] g (PyVal.dict (dictSet [] f1 v1))) =
        buildRowAux [(g, some (PyVal.str f1)), (g, some (PyVal.str f2))] 1 [v2]
          [(g, PyVal.dict [(f1, v1)])]
      rw [dictSet_head_same]
      rfl
    have e2 : buildRowAux [(g, some (PyVal.str f1)), (g, some (PyVal.str f2))]
        1 [v2] [(g, PyVal.dict [(f1, v1)])] =
        Except.ok [(g, PyVal.dict [(f1, v1), (f2, v2)])] := by
      rw [buildRowAux]
      simp only [List.get?_cons_succ, List.get?_cons_zero, pySetdefault,
        dictGet_cons_same, dictSet_head_same, dictSet_head_ne _ _ _ _ _ h]
      rfl
    have hb : buildRow [(g, some (PyVal.str f1)), (g, some (PyVal.str f2))]
        [v1, v2] = Except.ok [(g, PyVal.dict [(f1, v1), (f2, v2)])] := by
      rw [buildRow]
      exact e1.trans e2
    have hsteps : processList (PyVal.list [PyVal.list
          [PyVal.dict [(g, PyVal.list [PyVal.str f1, PyVal.str f2])]],
        PyVal.list [v1, v2]]) =
        Except.bind (Except.bind
          (buildRow [(g, some (PyVal.str f1)), (g, some (PyVal.str f2))] [v1, v2])
          (fun m => Except.ok [PyVal.dict m]))
          (fun rows => Except.ok (PyVal.list rows)) := rfl
    rw [hsteps, hb]
    rfl

/-- C6 witness: the amended clauses evaluated at concrete inputs — a
mapping row passing through, a bare two-name schema, and a single-group
schema. -/
theorem processList_schema_semantics_witness :
    processRows [] [PyVal.dict [("a", PyVal.int 1)]] =
      Except.ok [PyVal.dict [("a", PyVal.int 1)]] ∧
    processList (PyVal.list [PyVal.list [PyVal.str "a", PyVal.str "b"],
      PyVal.list [PyVal.int 1, PyVal.int 2]]) =
      Except.ok (PyVal.list [PyVal.dict [("a", PyVal.int 1), ("b", PyVal.int 2)]]) ∧
    processList (PyVal.list [PyVal.list
        [PyVal.dict [("s", PyVal.list [PyVal.str "x", PyVal.str "y"])]],
      PyVal.list [PyVal.int 1, PyVal.int 2]]) =
      Except.ok (PyVal.list
        [PyVal.dict [("s", PyVal.dict [("x", PyVal.int 1), ("y", PyVal.int 2)])]]) :=
  ⟨processList_schema_semantics.2.2.1 [] [PyVal.dict [("a", PyVal.int 1)]]
      (by intro r hr; simp at hr; rw [hr]; rfl),
    processList_schema_semantics.2.2.2.1 "a" "b" (PyVal.int 1) (PyVal.int 2)
      (by decide),
    processList_schema_semantics.2.2.2.2 "s" "x" "y" (PyVal.int 1) (PyVal.int 2)
      (by decide)⟩

/-- C7: a frame whose positive-length payload UTF-8 decodes to text `s` on
which the JSON parse fails is delivered as a packet whose payload is the raw
text `s` verbatim; the parse failure is contained (no exception escapes:
the protocol state stays running with an empty buffer, ready for further
frames). -/
theorem invalid_json_payload_kept_verbatim (parse : String → Option PyVal)
    (f : WireFrame) (s : String) (hv : ValidFrame f) (hne : f.payload ≠ [])
    (hdec : utf8Decode f.payload = some s) (hfail : parse s = Option.none) :
    dataReceived parse protInit (frameBytes f) =
      ⟨[], [⟨f.fctype, f.nfrom, f.nto, f.narg1, f.narg2, PyVal.str s⟩],
        PStatus.running⟩ := by
  have h2 : dataReceived parse protInit (frameBytes f) =
      ⟨[], [framePacket parse f], PStatus.running⟩ := by
    have := dataReceived_frames parse [f] (by simpa using hv) []
    simpa using this
  have hp : ¬ f.payload.length = 0 := fun hz => hne (List.length_eq_zero.mp hz)
  rw [h2]
  simp [framePacket, hdec, hfail, hp]

/-- C7 witness: the eight ASCII bytes of `"not json"` (which
`json.loads` rejects) survive as the raw string payload and decoding
continues. -/
theorem invalid_json_payload_kept_verbatim_witness :
    utf8Decode ([110, 111, 116, 32, 106, 115, 111, 110] : List Nat) =
        some "not json" ∧
      jsonLoads "not json" = Option.none ∧
      dataReceived jsonLoads protInit
          (frameBytes ⟨1, 2, 3, 4, 5, [110, 111, 116, 32, 106, 115, 111, 110]⟩) =
        ⟨[], [⟨1, 2, 3, 4, 5, PyVal.str "not json"⟩], PStatus.running⟩ :=
  ⟨rfl, rfl,
    invalid_json_payload_kept_verbatim jsonLoads
      ⟨1, 2, 3, 4, 5, [110, 111, 116, 32, 106, 115, 111, 110]⟩ "not json"
      ⟨by norm_num [i32Range], by norm_num [i32Range], by norm_num [i32Range],
        by norm_num [i32Range], by norm_num [i32Range], by norm_num,
        by decide, rfl⟩
      (by decide) rfl rfl⟩

/-- C1 counterexample: the round-trip does not return the same payload for
every text payload.  The payload `"0"` is valid JSON, so decoding yields the
integer 0 instead of the text `"0"`; and for the non-ASCII payload `"é"`
`tx_cmd` writes `len(smsg) = 1` (characters) as `payloadLength` while
`smsg.encode()` is two bytes, so the frame carries one truncated UTF-8 byte
and decoding halts the loop instead of returning a message. -/
theorem tx_roundtrip_counterexample :
    (dataReceived jsonLoads protInit (txCmdBytes 0 1 2 3 4 (some "0")) =
        ⟨[], [⟨1, 0, 2, 3, 4, PyVal.int 0⟩], PStatus.running⟩ ∧
      PyVal.int 0 ≠ PyVal.str "0") ∧
    dataReceived jsonLoads protInit (txCmdBytes 0 1 2 3 4 (some "é")) =
      ⟨txCmdBytes 0 1 2 3 4 (some "é"), [], PStatus.stopped⟩ :=
  ⟨⟨rfl, fun h => PyVal.noConfusion h⟩, rfl⟩

/-- C1 (amended): for header fields in `int32` range and an ASCII payload
text that is either empty or rejected by the JSON parse, encoding with
`tx_cmd` and decoding with `data_received` round-trips exactly: the decoded
packet carries the same kind, to, arg1 and arg2 (and the sender's session id
as `from`), the same payload text (`None` for the empty payload), and the
frame is 28 header bytes plus one byte per payload character, the empty
payload contributing `payloadLength 0` and no trailing bytes.  (Payload text
that parses as JSON decodes to the parsed value instead, and non-ASCII text
is truncated — see the counterexample.) -/
theorem tx_roundtrip (parse : String → Option PyVal)
    (sid fctype nto narg1 narg2 : Int) (s : String)
    (h1 : i32Range sid) (h2 : i32Range fctype) (h3 : i32Range nto)
    (h4 : i32Range narg1) (h5 : i32Range narg2)
    (hlen : s.length < 2 ^ 31)
    (hascii : ∀ c ∈ s.data, c.toNat < 128)
    (hjson : s ≠ "" → parse s = Option.none) :
    dataReceived parse protInit (txCmdBytes sid fctype nto narg1 narg2 (some s)) =
      ⟨[], [⟨fctype, sid, nto, narg1, narg2,
        if s = "" then PyVal.none else PyVal.str s⟩], PStatus.running⟩ ∧
    (txCmdBytes sid fctype nto narg1 narg2 (some s)).length = 28 + s.length := by
  have heq := txCmdBytes_eq_frameBytes sid fctype nto narg1 narg2 s hascii
  have hvf : ValidFrame ⟨fctype, sid, nto, narg1, narg2, utf8Encode s⟩ := by
    refine ⟨h2, h1, h3, h4, h5, ?_, ?_, ?_⟩
    · rw [utf8Encode_ascii_length s hascii]
      exact hlen
    · intro b hb
      rw [utf8Encode, utf8Encode_ascii s.data hascii] at hb
      obtain ⟨c, hc, rfl⟩ := List.mem_map.mp hb
      have := hascii c hc
      omega
    · rw [utf8Decode_ascii s hascii]
      rfl
  constructor
  · have hrun : dataReceived parse protInit
        (frameBytes ⟨fctype, sid, nto, narg1, narg2, utf8Encode s⟩) =
        ⟨[], [framePacket parse ⟨fctype, sid, nto, narg1, narg2, utf8Encode s⟩],
          PStatus.running⟩ := by
      simpa using dataReceived_frames parse
        [⟨fctype, sid, nto, narg1, narg2, utf8Encode s⟩] (by simpa using hvf) []
    rw [heq, hrun]
    by_cases hs : s = ""
    · subst hs
      rfl
    · have hd : s.data ≠ [] := by
        intro hd
        apply hs
        have hmk : s = String.mk s.data := by cases s; rfl
        rw [hmk, hd]
      have hlz : ¬ (utf8Encode s).length = 0 := by
        rw [utf8Encode_ascii_length s hascii]
        intro hz
        exact hd (by simpa [String.length] using List.length_eq_zero.mp hz)
      simp [framePacket, hlz, utf8Decode_ascii s hascii, hjson hs, hs]
  · rw [heq, frameBytes_length]
    simp [utf8Encode_ascii_length s hascii]

/-- C1 witness: the amended round-trip evaluated for the ASCII non-JSON
payload `"alice"` and concrete header fields. -/
theorem tx_roundtrip_witness :
    dataReceived jsonLoads protInit (txCmdBytes 0 1 2 3 4 (some "alice")) =
      ⟨[], [⟨1, 0, 2, 3, 4,
        if "alice" = "" then PyVal.none else PyVal.str "alice"⟩],
        PStatus.running⟩ ∧
    (txCmdBytes 0 1 2 3 4 (some "alice")).length = 28 + "alice".length :=
  tx_roundtrip jsonLoads 0 1 2 3 4 "alice"
    (by norm_num [i32Range]) (by norm_num [i32Range]) (by norm_num [i32Range])
    (by norm_num [i32Range]) (by norm_num [i32Range]) (by decide)
    (by decide) (fun _ => rfl)

/-- C2: for every byte stream that is a concatenation of valid frames,
feeding `data_received` the whole stream at once and feeding it one byte at
a time produce exactly the same decoded packet sequence, in order, with an
empty buffer and the loop still running; and any strict prefix of a valid
frame (less than a full header, or a header plus fewer than `payloadLength`
payload bytes) decodes nothing and is retained in the buffer. -/
theorem byte_by_byte_equivalence (parse : String → Option PyVal)
    (fs : List WireFrame) (hv : ∀ f ∈ fs, ValidFrame f) :
    dataReceived parse protInit ((fs.map frameBytes).flatten) =
      ⟨[], fs.map (framePacket parse), PStatus.running⟩ ∧
    ((fs.map frameBytes).flatten).foldl
        (fun st b => dataReceived parse st [b]) protInit =
      ⟨[], fs.map (framePacket parse), PStatus.running⟩ ∧
    (∀ f, ValidFrame f → ∀ k, k < (frameBytes f).length →
      dataReceived parse protInit ((frameBytes f).take k) =
        ⟨(frameBytes f).take k, [], PStatus.running⟩) := by
  refine ⟨?_, ?_, ?_⟩
  · simpa using dataReceived_frames parse fs hv []
  · simpa using foldl_bytes_frames parse fs hv []
  · intro f hvf k hk
    have hstep : decodeStep parse ((frameBytes f).take k) = DecodeStep.incomplete :=
      decodeStep_short parse f k hvf (by rw [frameBytes_length] at hk; omega)
    have h0 : dataReceived parse protInit ((frameBytes f).take k) =
        decodeLoop parse ((0 : Nat) + ((frameBytes f).take k).length + 1)
          ((frameBytes f).take k) [] := rfl
    rw [h0, decodeLoop_incomplete parse _ hstep]

/-- C2 witness: a two-frame stream — an eight-byte text payload frame and a
zero-payload frame — decoded whole and byte-by-byte, and a 30-byte prefix of
the first frame decoding to nothing. -/
theorem byte_by_byte_equivalence_witness :
    dataReceived jsonLoads protInit
        ((([⟨1, 2, 3, 4, 5, [110, 111, 116, 32, 106, 115, 111, 110]⟩,
          ⟨20, 0, 0, 0, 0, []⟩] : List WireFrame).map frameBytes).flatten) =
      ⟨[], [⟨1, 2, 3, 4, 5, PyVal.str "not json"⟩, ⟨20, 0, 0, 0, 0, PyVal.none⟩],
        PStatus.running⟩ ∧
    ((([⟨1, 2, 3, 4, 5, [110, 111, 116, 32, 106, 115, 111, 110]⟩,
          ⟨20, 0, 0, 0, 0, []⟩] : List WireFrame).map frameBytes).flatten).foldl
        (fun st b => dataReceived jsonLoads st [b]) protInit =
      ⟨[], [⟨1, 2, 3, 4, 5, PyVal.str "not json"⟩, ⟨20, 0, 0, 0, 0, PyVal.none⟩],
        PStatus.running⟩ ∧
    dataReceived jsonLoads protInit
        ((frameBytes ⟨1, 2, 3, 4, 5, [110, 111, 116, 32, 106, 115, 111, 110]⟩).take 30) =
      ⟨(frameBytes ⟨1, 2, 3, 4, 5, [110, 111, 116, 32, 106, 115, 111, 110]⟩).take 30,
        [], PStatus.running⟩ := by
  have h := byte_by_byte_equivalence jsonLoads
    [⟨1, 2, 3, 4, 5, [110, 111, 116, 32, 106, 115, 111, 110]⟩,
      ⟨20, 0, 0, 0, 0, []⟩]
    (by intro f hf
        rcases List.mem_cons.mp hf with rfl | hf2
        · exact ⟨by norm_num [i32Range], by norm_num [i32Range],
            by norm_num [i32Range], by norm_num [i32Range],
            by norm_num [i32Range], by norm_num, by decide, rfl⟩
        rcases List.mem_cons.mp hf2 with rfl | hf3
        · exact ⟨by norm_num [i32Range], by norm_num [i32Range],
            by norm_num [i32Range], by norm_num [i32Range],
            by norm_num [i32Range], by norm_num, by decide, rfl⟩
        simp at hf3)
  refine ⟨h.1.trans (by rfl), h.2.1.trans (by rfl),
    h.2.2 ⟨1, 2, 3, 4, 5, [110, 111, 116, 32, 106, 115, 111, 110]⟩
      ⟨by norm_num [i32Range], by norm_num [i32Range], by norm_num [i32Range],
        by norm_num [i32Range], by norm_num [i32Range], by norm_num,
        by decide, rfl⟩
      30 (by decide)⟩

theorem mergeRowsFold_no_emit (cb : Collab) (rows : List PyVal) :
    ∀ a ∈ (mergeRowsFold cb rows).1, a.isEmitModelsLoaded = false := by
  induction rows with
  | nil => intro a ha; simp [mergeRowsFold] at ha
  | cons row rest ih =>
      intro a ha
      cases row with
      | dict kvs =>
          rw [mergeRowsFold] at ha
          rcases hu : dictGet kvs "uid" with _ | uidv
          · rw [hu] at ha; simp at ha
          · rcases hl : dictGet kvs "lv" with _ | lv
            · rw [hu, hl] at ha; simp at ha
            · rw [hu, hl] at ha
              rcases hmf : mergeRowsFold cb rest with ⟨tl, er⟩
              rw [hmf] at ha
              rcases List.mem_append.mp ha with hhd | htl
              · by_cases hg : cb.getModelSome uidv (lv.eqInt FCLEVEL.MODEL)
                · rw [if_pos hg] at hhd
                  simp only [List.mem_cons, List.not_mem_nil, or_false] at hhd
                  rcases hhd with rfl | rfl <;> rfl
                · rw [if_neg hg] at hhd
                  simp only [List.mem_singleton] at hhd
                  rw [hhd]
                  rfl
              · have hrec := ih a
                rw [hmf] at hrec
                exact hrec htl
      | none =>
          have he : mergeRowsFold cb (PyVal.none :: rest) =
            ([], some "TypeError") := rfl
          rw [he] at ha
          simp at ha
      | bool b =>
          have he : mergeRowsFold cb (PyVal.bool b :: rest) =
            ([], some "TypeError") := rfl
          rw [he] at ha
          simp at ha
      | int n =>
          have he : mergeRowsFold cb (PyVal.int n :: rest) =
            ([], some "TypeError") := rfl
          rw [he] at ha
          simp at ha
      | str s0 =>
          have he : mergeRowsFold cb (PyVal.str s0 :: rest) =
            ([], some "TypeError") := rfl
          rw [he] at ha
          simp at ha
      | list xs =>
          have he : mergeRowsFold cb (PyVal.list xs :: rest) =
            ([], some "TypeError") := rfl
          rw [he] at ha
          simp at ha

theorem mergeRowsFold_ok (cb : Collab) (rows : List PyVal)
    (h : ∀ r ∈ rows, rowOk r = true) :
    (mergeRowsFold cb rows).2 = Option.none := by
  induction rows with
  | nil => rfl
  | cons row rest ih =>
      have hr := h row (List.mem_cons_self row rest)
      have htail := ih (fun x hx => h x (List.mem_cons_of_mem row hx))
      cases row with
      | dict kvs =>
          rw [rowOk] at hr
          obtain ⟨uidv, hu⟩ := Option.isSome_iff_exists.mp
            ((Bool.and_eq_true _ _).mp hr).1
          obtain ⟨lv, hl⟩ := Option.isSome_iff_exists.mp
            ((Bool.and_eq_true _ _).mp hr).2
          rw [mergeRowsFold, hu, hl]
          rcases hmf : mergeRowsFold cb rest with ⟨tl, er⟩
          show er = Option.none
          rw [hmf] at htail
          exact htail
      | none => simp [rowOk] at hr
      | bool b => simp [rowOk] at hr
      | int n => simp [rowOk] at hr
      | str s0 => simp [rowOk] at hr
      | list xs => simp [rowOk] at hr

theorem manageTagsFold_no_emit (cb : Collab) (kvs : List (String × PyVal)) :
    ∀ a ∈ manageTagsFold cb kvs, a.isEmitModelsLoaded = false := by
  induction kvs with
  | nil => intro a ha; simp [manageTagsFold] at ha
  | cons kv rest ih =>
      intro a ha
      rw [manageTagsFold] at ha
      rcases List.mem_append.mp ha with hhd | htl
      · by_cases hg : cb.getModelSome (PyVal.str kv.1) false
        · rw [if_pos hg] at hhd
          simp only [List.mem_cons, List.not_mem_nil, or_false] at hhd
          rcases hhd with rfl | rfl <;> rfl
        · rw [if_neg hg] at hhd
          simp only [List.mem_singleton] at hhd
          rw [hhd]
          rfl
      · exact ih a htl

theorem handleDisconnectedRest_flags (t : ClientState) (acts : List CAction) :
    (handleDisconnectedRest t acts).st.completed_models = false ∧
    (handleDisconnectedRest t acts).st.completed_tags = false := ⟨rfl, rfl⟩

theorem handleDisconnected_shape (s : ClientState) :
    (∃ t acts, handleDisconnected s = handleDisconnectedRest t acts) ∨
    (handleDisconnected s).err = Option.some "AttributeError" := by
  obtain ⟨un, pw, sid, ka, cm, ct, uidv, md, lg, scx, spw, svx, lh, fut⟩ := s
  cases ka
  · by_cases hpw : pw = "guest"
    · subst hpw
      cases un
      · exact Or.inr rfl
      · exact Or.inr rfl
      · exact Or.inr rfl
      · exact Or.inl ⟨_, _, rfl⟩
      · exact Or.inr rfl
      · exact Or.inr rfl
    · refine Or.inl ⟨⟨un, pw, sid, false, cm, ct, uidv, md, lg, scx, spw, svx,
        lh, fut⟩, [], ?_⟩
      show (if pw = "guest" then _ else handleDisconnectedRest
        ⟨un, pw, sid, false, cm, ct, uidv, md, lg, scx, spw, svx, lh, fut⟩ []) = _
      rw [if_neg hpw]
  · by_cases hpw : pw = "guest"
    · subst hpw
      cases un
      · exact Or.inr rfl
      · exact Or.inr rfl
      · exact Or.inr rfl
      · exact Or.inl ⟨_, _, rfl⟩
      · exact Or.inr rfl
      · exact Or.inr rfl
    · refine Or.inl ⟨⟨un, pw, sid, false, cm, ct, uidv, md, lg, scx, spw, svx,
        lh, fut⟩, [CAction.cancelKeepalive], ?_⟩
      show (if pw = "guest" then _ else handleDisconnectedRest
        ⟨un, pw, sid, false, cm, ct, uidv, md, lg, scx, spw, svx, lh, fut⟩
        [CAction.cancelKeepalive]) = _
      rw [if_neg hpw]

/-- C9: the bulk-models-loaded lifecycle event fires once per connection.
First, a `MANAGELIST` packet with `narg2 = FCL.CAMS` carrying a decodable
roster whose rows all have `uid` and `lv` fields, processed with
`_completed_models` unfired, sets the flag and emits `CLIENT_MODELSLOADED`
exactly once.  Second, with the flag already fired, no `MANAGELIST` packet
ever emits `CLIENT_MODELSLOADED` again, and the flag stays fired.  Third,
whenever `handle_disconnected` completes, it resets both `_completed_models`
and `_completed_tags` to unfired for the next connection. -/
theorem bulk_models_loaded_once :
    (∀ (cb : Collab) (s : ClientState) (p : Packet)
      (kvs : List (String × PyVal)) (rdataRaw : PyVal) (rows : List PyVal),
      p.fctype = FCTYPE.MANAGELIST → p.narg2 = FCL.CAMS →
      p.smessage = PyVal.dict kvs → dictGet kvs "rdata" = some rdataRaw →
      processList rdataRaw = Except.ok (PyVal.list rows) →
      (∀ r ∈ rows, rowOk r = true) → s.completed_models = false →
      (processPacket cb p s).st.completed_models = true ∧
        (processPacket cb p s).acts.countP (fun a => a.isEmitModelsLoaded) = 1 ∧
        (processPacket cb p s).err = Option.none) ∧
    (∀ (cb : Collab) (s : ClientState) (p : Packet),
      p.fctype = FCTYPE.MANAGELIST → s.completed_models = true →
      (processPacket cb p s).acts.countP (fun a => a.isEmitModelsLoaded) = 0 ∧
        (processPacket cb p s).st.completed_models = true) ∧
    (∀ s : ClientState, (handleDisconnected s).err = Option.none →
      (handleDisconnected s).st.completed_models = false ∧
        (handleDisconnected s).st.completed_tags = false) := by
  refine ⟨?_, ?_, ?_⟩
  · intro cb s p kvs rdataRaw rows hf hn hsm hget hlist hrows hcm
    rw [processPacket, hf, if_neg (by decide), if_neg (by decide),
      if_neg (by decide), if_neg (by decide), if_neg (by decide),
      if_neg (by decide), if_pos rfl, hn, if_pos (by decide), hsm]
    simp only [pyContains, hget, Option.isSome, pyGetItem, hlist]
    rw [if_pos (by decide)]
    rcases hmf : mergeRowsFold cb rows with ⟨acts, er⟩
    have her : er = Option.none := by
      have hok := mergeRowsFold_ok cb rows hrows
      rw [hmf] at hok
      exact hok
    subst her
    rw [if_pos (by simp [hcm])]
    refine ⟨by simp, ?_, by simp⟩
    simp only [List.countP_append]
    have hz : acts.countP (fun a => a.isEmitModelsLoaded) = 0 := by
      rw [List.countP_eq_zero]
      intro a ha
      have hne := mergeRowsFold_no_emit cb rows a
      rw [hmf] at hne
      simp [hne ha]
    rw [hz]
    rfl
  · intro cb s p hf hcm
    rw [processPacket, hf, if_neg (by decide), if_neg (by decide),
      if_neg (by decide), if_neg (by decide), if_neg (by decide),
      if_neg (by decide), if_pos rfl]
    have hz : ∀ rows : List PyVal,
        ((mergeRowsFold cb rows).1).countP (fun a => a.isEmitModelsLoaded) = 0 := by
      intro rows
      rw [List.countP_eq_zero]
      intro a ha
      simp [mergeRowsFold_no_emit cb rows a ha]
    have hzt : ∀ kvs : List (String × PyVal),
        (manageTagsFold cb kvs).countP (fun a => a.isEmitModelsLoaded) = 0 := by
      intro kvs
      rw [List.countP_eq_zero]
      intro a ha
      simp [manageTagsFold_no_emit cb kvs a ha]
    by_cases hn : 0 < p.narg2
    case neg => rw [if_neg hn]; exact ⟨rfl, hcm⟩
    rw [if_pos hn]
    rcases hc : pyContains p.smessage "rdata" with e | b
    · simp only [hc]
      exact ⟨rfl, hcm⟩
    cases b
    · simp only [hc]
      exact ⟨rfl, hcm⟩
    simp only [hc]
    rcases hg : pyGetItem p.smessage "rdata" with e | rdataRaw
    · simp only [hg]
      exact ⟨rfl, hcm⟩
    simp only [hg]
    rcases hl : processList rdataRaw with e | rdata
    · simp only [hl]
      exact ⟨rfl, hcm⟩
    simp only [hl]
    by_cases hnt : p.narg2 = FCL.ROOMMATES ∨ p.narg2 = FCL.CAMS ∨
        p.narg2 = FCL.FRIENDS ∨ p.narg2 = FCL.IGNORES
    · rw [if_pos hnt]
      cases rdata with
      | list rows =>
          rcases hmf : mergeRowsFold cb rows with ⟨acts, er⟩
          simp only [hmf]
          have hza : acts.countP (fun a => a.isEmitModelsLoaded) = 0 := by
            have h0 := hz rows
            rw [hmf] at h0
            simpa using h0
          cases er with
          | some e => exact ⟨hza, hcm⟩
          | none =>
              rw [if_neg (by simp [hcm])]
              exact ⟨hza, hcm⟩
      | none => exact ⟨rfl, hcm⟩
      | bool b2 => exact ⟨rfl, hcm⟩
      | int n2 => exact ⟨rfl, hcm⟩
      | str s2 => exact ⟨rfl, hcm⟩
      | dict d2 => exact ⟨rfl, hcm⟩
    · rw [if_neg hnt]
      by_cases htag : p.narg2 = FCL.TAGS
      · rw [if_pos htag]
        cases rdata with
        | dict kvs =>
            by_cases hct : s.completed_tags
            · rw [hct]
              exact ⟨hzt kvs, hcm⟩
            · have hcf : s.completed_tags = false := by simpa using hct
              rw [hcf]
              refine ⟨?_, hcm⟩
              show (manageTagsFold cb kvs ++
                  [CAction.emit FCTYPE.CLIENT_TAGSLOADED Option.none]).countP
                  (fun a => a.isEmitModelsLoaded) = 0
              rw [List.countP_append, hzt kvs]
              rfl
        | none => exact ⟨rfl, hcm⟩
        | bool b2 => exact ⟨rfl, hcm⟩
        | int n2 => exact ⟨rfl, hcm⟩
        | str s2 => exact ⟨rfl, hcm⟩
        | list l2 => exact ⟨rfl, hcm⟩
      · rw [if_neg htag]
        exact ⟨rfl, hcm⟩
  · intro s herr
    rcases handleDisconnected_shape s with ⟨t, acts, heq⟩ | hsome
    · rw [heq]
      exact handleDisconnectedRest_flags t acts
    · rw [herr] at hsome
      exact Option.noConfusion hsome

theorem bulk_models_loaded_once_witness :
    (processPacket ⟨fun _ _ => false, fun _ => PyVal.none⟩
        (Packet.mk FCTYPE.MANAGELIST 0 0 0 FCL.CAMS
          (PyVal.dict [("rdata", PyVal.list
            [PyVal.list [PyVal.str "uid", PyVal.str "lv"],
             PyVal.list [PyVal.int 7, PyVal.int 4]])]))
        (clientInit "mc" "hunter2")).st.completed_models = true ∧
    (processPacket ⟨fun _ _ => false, fun _ => PyVal.none⟩
        (Packet.mk FCTYPE.MANAGELIST 0 0 0 FCL.CAMS
          (PyVal.dict [("rdata", PyVal.list
            [PyVal.list [PyVal.str "uid", PyVal.str "lv"],
             PyVal.list [PyVal.int 7, PyVal.int 4]])]))
        (clientInit "mc" "hunter2")).acts.countP
      (fun a => a.isEmitModelsLoaded) = 1 ∧
    (processPacket ⟨fun _ _ => false, fun _ => PyVal.none⟩
        (Packet.mk FCTYPE.MANAGELIST 0 0 0 (-1) PyVal.none)
        { clientInit "mc" "hunter2" with completed_models := true }).acts.countP
      (fun a => a.isEmitModelsLoaded) = 0 ∧
    (handleDisconnected (clientInit "mc" "hunter2")).st.completed_models = false ∧
    (handleDisconnected (clientInit "mc" "hunter2")).st.completed_tags = false := by
  have h1 := (bulk_models_loaded_once.1 ⟨fun _ _ => false, fun _ => PyVal.none⟩
    (clientInit "mc" "hunter2")
    (Packet.mk FCTYPE.MANAGELIST 0 0 0 FCL.CAMS
      (PyVal.dict [("rdata", PyVal.list
        [PyVal.list [PyVal.str "uid", PyVal.str "lv"],
         PyVal.list [PyVal.int 7, PyVal.int 4]])]))
    [("rdata", PyVal.list
      [PyVal.list [PyVal.str "uid", PyVal.str "lv"],
       PyVal.list [PyVal.int 7, PyVal.int 4]])]
    (PyVal.list [PyVal.list [PyVal.str "uid", PyVal.str "lv"],
      PyVal.list [PyVal.int 7, PyVal.int 4]])
    [PyVal.dict [("uid", PyVal.int 7), ("lv", PyVal.int 4)]]
    rfl rfl rfl rfl rfl (by decide) rfl)
  have h2 := bulk_models_loaded_once.2.1 ⟨fun _ _ => false, fun _ => PyVal.none⟩
    { clientInit "mc" "hunter2" with completed_models := true }
    (Packet.mk FCTYPE.MANAGELIST 0 0 0 (-1) PyVal.none) rfl rfl
  have h3 := bulk_models_loaded_once.2.2 (clientInit "mc" "hunter2") rfl
  exact ⟨h1.1, h1.2.1, h2.1, h3.1, h3.2⟩
